import Mathlib

/-!
Verification of the RINA simulation core (DIF / IPCP / Flow) against its
natural-language specification.  The definitions below are a shallow
embedding of the Python sources `rina/dif.py`, `rina/sequence.py`,
`rina/flow.py` and `rina/ipcp.py`: dictionaries become association lists,
object identity becomes numeric ids, `asyncio` suspension points are
elided (the scheduler is cooperative and single-threaded), and wall-clock
timestamps are dropped since no modelled property reads them.
-/

namespace Rina

abbrev DifId := Nat
abbrev IpcpId := Nat
abbrev FlowId := Nat
abbrev AppId := Nat
abbrev Port := Nat

/-- Association-list lookup (Python `dict` access / `dict.get`). -/
def lookupA {α : Type} (k : Nat) : List (Nat × α) → Option α
  | [] => none
  | (k', v) :: rest => if k' = k then some v else lookupA k rest

/-- Association-list insert-or-replace (Python `d[k] = v`). -/
def insertA {α : Type} (k : Nat) (v : α) : List (Nat × α) → List (Nat × α)
  | [] => [(k, v)]
  | (k', v') :: rest => if k' = k then (k, v) :: rest else (k', v') :: insertA k v rest

/-- Association-list key removal (Python `del d[k]` / `d.pop(k)`). -/
def eraseA {α : Type} (k : Nat) (l : List (Nat × α)) : List (Nat × α) :=
  l.filter (fun p => decide (p.1 ≠ k))

/-- `rina/qos.py`: QoS descriptor.  `reliability` defaults to 1 and is never
read by the core. -/
structure QoS where
  bandwidth : Option Nat
  latency : Option Nat
  reliability : Nat
deriving DecidableEq

/-- Python truthiness of `self.qos and self.qos.bandwidth`: yields the
bandwidth only when a QoS object is present and its bandwidth is neither
`None` nor `0`. -/
def truthyBandwidth : Option QoS → Option Nat
  | none => none
  | some q =>
    match q.bandwidth with
    | none => none
    | some 0 => none
    | some b => some b

/-- `rina/dif.py`: a DIF's bandwidth bookkeeping (`name`, `layer`, member
maps and monitoring fields carry no behaviour relevant to the claims). -/
structure DIF where
  max_bandwidth : Nat
  allocated_bandwidth : Nat
deriving DecidableEq

/-- `DIF.allocate_bandwidth`: `None` succeeds with no state change, else
test-and-increment against `max_bandwidth`. -/
def DIF.allocate_bandwidth (d : DIF) (bandwidth : Option Nat) : Bool × DIF :=
  match bandwidth with
  | none => (true, d)
  | some b =>
    if d.allocated_bandwidth + b ≤ d.max_bandwidth then
      (true, { d with allocated_bandwidth := d.allocated_bandwidth + b })
    else
      (false, d)

/-- `DIF.release_bandwidth`: decrement clamped at 0 (Python
`max(0, allocated - b)` equals truncated subtraction on naturals). -/
def DIF.release_bandwidth (d : DIF) (bandwidth : Option Nat) : DIF :=
  match bandwidth with
  | none => d
  | some b => { d with allocated_bandwidth := d.allocated_bandwidth - b }

/-- One call against a DIF's admission interface, for stating invariants
over arbitrary call sequences. -/
inductive BwOp where
  | alloc (b : Option Nat)
  | release (b : Option Nat)

def DIF.runOp (d : DIF) (op : BwOp) : DIF :=
  match op with
  | .alloc b => (d.allocate_bandwidth b).2
  | .release b => d.release_bandwidth b

def DIF.runOps (d : DIF) (ops : List BwOp) : DIF := ops.foldl DIF.runOp d

/-- `rina/sequence.py`: modulo-N sequence counter, default
`max_value = 2^16 - 1`. -/
structure SequenceNumber where
  value : Nat
  max_value : Nat
deriving DecidableEq

/-- `SequenceNumber.next`: post-increment modulo `max_value + 1`. -/
def SequenceNumber.next (s : SequenceNumber) : Nat × SequenceNumber :=
  (s.value, { s with value := (s.value + 1) % (s.max_value + 1) })

/-- `SequenceNumber.is_in_window`: window membership with wrap-around. -/
def SequenceNumber.is_in_window (s : SequenceNumber) (seq_num base_seq window_size : Nat) :
    Bool :=
  if base_seq + window_size > s.max_value then
    decide (seq_num ≥ base_seq) ||
      decide (seq_num < (base_seq + window_size) % (s.max_value + 1))
  else
    decide (base_seq ≤ seq_num) && decide (seq_num < base_seq + window_size)

/-- Frames on the wire: opaque application payloads, data packets
`{seq_num, is_ack: false, data}`, acks `{is_ack: true, ack_seq_num}` and
encapsulation records `{header: {flow_id, qos}, payload}`. -/
inductive Frame where
  | raw (payload : Nat)
  | dataPkt (seq_num : Nat) (data : Frame)
  | ack (ack_seq_num : Nat)
  | encap (flow_id : FlowId) (qos : Option QoS) (payload : Frame)
deriving DecidableEq

/-- Python `isinstance(data, dict) and 'header' in data`. -/
def Frame.isEncap : Frame → Bool
  | .encap _ _ _ => true
  | _ => false

/-- `FlowAllocationFSM.State` from `rina/flow.py`. -/
inductive FlowState where
  | INIT
  | REQUEST_SENT
  | ALLOCATED
  | ACTIVE
  | DEALLOCATING
  | CLOSED
deriving DecidableEq

/-- `rina/flow.py` `Flow.__init__` state.  `unacked_packets` drops the
stored timestamp (read only by the retransmission timer, which is not
modelled); `ack_arrived` is the `ack_received` event flag and
`retrans_task` records whether the retransmission task was started. -/
structure Flow where
  id : FlowId
  src_ipcp : IpcpId
  dest_ipcp : IpcpId
  port : Port
  qos : Option QoS
  state : FlowState
  lower_flow_id : Option FlowId
  retry_count : Nat
  window_size : Nat
  sequence_gen : SequenceNumber
  send_base : Nat
  next_seq_num : Nat
  recv_base : Nat
  unacked_packets : List (Nat × Frame)
  out_of_order_buffer : List (Nat × Frame)
  ack_arrived : Bool
  retrans_task : Bool
  sent_packets : Nat
  received_packets : Nat
  ack_packets : Nat
  retransmitted_packets : Nat
deriving DecidableEq

/-- A freshly constructed flow (`Flow.__init__` defaults: window 16, all
counters zero, FSM starts in `INITIALIZED`). -/
def Flow.mk0 (fid : FlowId) (src dest : IpcpId) (port : Port) (qos : Option QoS) : Flow :=
  { id := fid, src_ipcp := src, dest_ipcp := dest, port := port, qos := qos,
    state := .INIT, lower_flow_id := none, retry_count := 0,
    window_size := 16, sequence_gen := ⟨0, 65535⟩, send_base := 0, next_seq_num := 0,
    recv_base := 0, unacked_packets := [], out_of_order_buffer := [],
    ack_arrived := false, retrans_task := false,
    sent_packets := 0, received_packets := 0, ack_packets := 0,
    retransmitted_packets := 0 }

/-- `FlowAllocationFSM.handle_event("start_allocation")`: `start_allocation`
moves to `REQUEST_SENT`, schedules the allocation timeout and immediately
calls `confirm_allocation`, which cancels the timeout and sets `ACTIVE`
(the timer is not modelled; its only effect here is being cancelled). -/
def Flow.start_allocation_active (f : Flow) : Flow :=
  { f with state := .ACTIVE }

/-- One frame handed to the transmission path: the IPCP it is addressed
to, the flow id it travels under, and the frame itself. -/
structure Emit where
  target : IpcpId
  via_flow : FlowId
  frame : Frame
deriving DecidableEq

/-- `Flow._send_packet` for a fresh (non-retransmitted) packet: record it
as unacknowledged, bump `sent_packets`, and either encapsulate for the
lower flow or address the destination IPCP directly.  `src_lower` is
`self.src_ipcp.lower_ipcp`. -/
def Flow.send_packet (f : Flow) (src_lower : Option IpcpId) (data : Frame) (seq_num : Nat) :
    Flow × Emit :=
  let packet := Frame.dataPkt seq_num data
  let f := { f with unacked_packets := insertA seq_num data f.unacked_packets,
                    sent_packets := f.sent_packets + 1 }
  match f.lower_flow_id, src_lower with
  | some lid, some lo => (f, ⟨lo, lid, .encap f.id f.qos packet⟩)
  | _, _ => (f, ⟨f.dest_ipcp, f.id, packet⟩)

/-- Outcome of `Flow.send_data`: a `ConnectionError` on a non-ACTIVE flow,
suspension while the send window is full (the Python sender loops waiting
on `ack_received`; no single-threaded step can complete), or a sent packet
with its assigned sequence number. -/
inductive FlowSendResult where
  | invalidState
  | blocked
  | sent (seq : Nat) (f : Flow) (e : Emit)
deriving DecidableEq

/-- `Flow.send_data`: window-guarded send; the sequence number comes from
`sequence_gen.next()` and `next_seq_num` is never touched. -/
def Flow.send_data (f : Flow) (src_lower : Option IpcpId) (data : Frame) : FlowSendResult :=
  if f.state ≠ FlowState.ACTIVE then .invalidState
  else if f.window_size ≤ f.unacked_packets.length then .blocked
  else
    let n := f.sequence_gen.next
    let f := { f with sequence_gen := n.2 }
    let r := f.send_packet src_lower data n.1
    .sent n.1 r.1 r.2

/-- The per-key removal test in `Flow._handle_ack`:
`(ack_seq >= seq) or (ack_seq < seq and ack_seq < self.send_base)`. -/
def ackCovers (ack_seq send_base seq : Nat) : Bool :=
  decide (ack_seq ≥ seq) || (decide (ack_seq < seq) && decide (ack_seq < send_base))

/-- Minimum over the keys of an association list, seeded with `k`
(Python `min(self.unacked_packets.keys())`). -/
def minKeyFold (k : Nat) : List (Nat × Frame) → Nat
  | [] => k
  | p :: rest => minKeyFold (Nat.min k p.1) rest

/-- `Flow._handle_ack`: bump `ack_packets`, drop every unacked entry whose
key satisfies `ackCovers`, then reset `send_base` to `next_seq_num` if
nothing remains or to the smallest remaining key, and set the
`ack_received` event. -/
def Flow.handle_ack (f : Flow) (ack_seq : Nat) : Flow :=
  let remaining := f.unacked_packets.filter (fun p => ! ackCovers ack_seq f.send_base p.1)
  let sb :=
    match remaining with
    | [] => f.next_seq_num
    | p :: rest => minKeyFold p.1 rest
  { f with ack_packets := f.ack_packets + 1,
           unacked_packets := remaining,
           send_base := sb,
           ack_arrived := true }

/-- `rina/ipcp.py` `IPCP.__init__` state: containing DIF, optional lower
and higher IPCPs (the latter is the back-reference installed on the lower
IPCP), the port-to-application map and the flow table.  Flow objects are
shared between both endpoints' tables, so the table holds ids into the
network-wide heap below (`neighbors` and `pending_requests` carry no
behaviour relevant to the claims). -/
structure IPCP where
  id : IpcpId
  dif : DifId
  lower_ipcp : Option IpcpId
  higher_ipcp : Option IpcpId
  port_map : List (Port × AppId)
  flows : List FlowId
deriving DecidableEq

/-- The whole simulated network: DIFs, IPCPs, the heap of flow objects
(one object per flow id, aliased by both endpoints' tables), application
receive buffers (`Application.receive_buffer`), and the fresh-id counter
standing in for `uuid.uuid4()`. -/
structure Network where
  difs : List (DifId × DIF)
  ipcps : List (IpcpId × IPCP)
  flow_heap : List (FlowId × Flow)
  app_buffers : List (AppId × List Frame)
  next_flow_id : Nat
deriving DecidableEq

def Network.dif (net : Network) (i : DifId) : Option DIF := lookupA i net.difs

def Network.ipcp (net : Network) (i : IpcpId) : Option IPCP := lookupA i net.ipcps

def Network.flow (net : Network) (i : FlowId) : Option Flow := lookupA i net.flow_heap

def Network.updDif (net : Network) (i : DifId) (g : DIF → DIF) : Network :=
  match lookupA i net.difs with
  | some d => { net with difs := insertA i (g d) net.difs }
  | none => net

def Network.setFlow (net : Network) (i : FlowId) (f : Flow) : Network :=
  { net with flow_heap := insertA i f net.flow_heap }

def Network.updFlow (net : Network) (i : FlowId) (g : Flow → Flow) : Network :=
  match lookupA i net.flow_heap with
  | some f => net.setFlow i (g f)
  | none => net

def Network.updIpcp (net : Network) (i : IpcpId) (g : IPCP → IPCP) : Network :=
  match lookupA i net.ipcps with
  | some p => { net with ipcps := insertA i (g p) net.ipcps }
  | none => net

/-- Register a flow id in an IPCP's flow table
(`self.flows[flow_id] = flow`). -/
def Network.addFlowToTable (net : Network) (i : IpcpId) (fid : FlowId) : Network :=
  net.updIpcp i (fun p => { p with flows := p.flows ++ [fid] })

/-- Remove a flow id from an IPCP's flow table (`del self.flows[flow_id]`). -/
def Network.removeFlowFromTable (net : Network) (i : IpcpId) (fid : FlowId) : Network :=
  net.updIpcp i (fun p => { p with flows := p.flows.filter (fun x => decide (x ≠ fid)) })

/-- `DIF.allocate_bandwidth` lifted to the network's DIF store. -/
def Network.allocate_bandwidth (net : Network) (i : DifId) (b : Option Nat) :
    Bool × Network :=
  match net.dif i with
  | some d =>
    let r := d.allocate_bandwidth b
    (r.1, { net with difs := insertA i r.2 net.difs })
  | none => (false, net)

/-- `DIF.release_bandwidth` lifted to the network's DIF store. -/
def Network.release_bandwidth (net : Network) (i : DifId) (b : Option Nat) : Network :=
  net.updDif i (fun d => d.release_bandwidth b)

/-- `rina/application.py` `Application.on_data`: append the payload to the
application's receive buffer.  (The `b"ping"`-reply convenience branch is a
test-harness hook and is not modelled.) -/
def Application.on_data (net : Network) (a : AppId) (data : Frame) : Network :=
  { net with
    app_buffers := insertA a ((lookupA a net.app_buffers).getD [] ++ [data]) net.app_buffers }

/-- Modelled from the spec: `IPCP.deliver_to_application(port, bytes)` is
called from `Flow._handle_data_packet` but is defined nowhere in the
repository; per the spec it "Looks up `port_map[port]` and performs the
upcall" (the upcall-timeout wrapper has no effect in an untimed model). -/
def IPCP.deliver_to_application (net : Network) (ipcp_id : IpcpId) (port : Port)
    (data : Frame) : Network :=
  match net.ipcp ipcp_id with
  | some p =>
    match lookupA port p.port_map with
    | some a => Application.on_data net a data
    | none => net
  | none => net

/-- The in-order drain loop of `Flow._handle_data_packet`:
`while self.recv_base in self.out_of_order_buffer: pop and deliver`.
Returns the advanced `recv_base`, the remaining buffer and the payloads
delivered, in delivery order; the fuel is instantiated with the buffer
length, which bounds the number of iterations. -/
def drainLoop : Nat → Nat → List (Nat × Frame) → Nat × List (Nat × Frame) × List Frame
  | 0, r, buf => (r, buf, [])
  | fuel+1, r, buf =>
    match lookupA r buf with
    | none => (r, buf, [])
    | some d =>
      let next := drainLoop fuel ((r + 1) % 65536) (eraseA r buf)
      (next.1, next.2.1, d :: next.2.2)

/-- `Flow._send_ack`: route the cumulative ACK for `f`'s current
`recv_base` back towards the source — encapsulated through
`dest_ipcp.lower_ipcp` when a lower flow carries this one, else directly to
`src_ipcp.receive_data`.  The ACK number is `(recv_base - 1) mod 2^16`,
which on naturals is `(recv_base + 65535) % 65536`. -/
def Flow.send_ack_emit (net : Network) (f : Flow) : List Emit :=
  let ackp := Frame.ack ((f.recv_base + 65535) % 65536)
  match f.lower_flow_id, (net.ipcp f.src_ipcp).bind IPCP.lower_ipcp with
  | some lid, some _ =>
    match (net.ipcp f.dest_ipcp).bind IPCP.lower_ipcp with
    | some dlo => [⟨dlo, lid, .encap f.id f.qos ackp⟩]
    | none => []
  | _, _ => [⟨f.src_ipcp, f.id, ackp⟩]

/-- `Flow._handle_data_packet` on the flow with id `fid`: in-order data is
delivered through `deliver_to_application` and the buffer drained forward;
in-window data is buffered; anything else is dropped; in every case one
cumulative ACK is routed back. -/
def Flow.handle_data_packet (net : Network) (fid : FlowId) (seq_num : Nat) (data : Frame) :
    Network × List Emit :=
  match net.flow fid with
  | none => (net, [])
  | some f =>
    if seq_num = f.recv_base then
      let net := IPCP.deliver_to_application net f.dest_ipcp f.port data
      let dr := drainLoop f.out_of_order_buffer.length ((f.recv_base + 1) % 65536)
                  f.out_of_order_buffer
      let net := dr.2.2.foldl
        (fun n d => IPCP.deliver_to_application n f.dest_ipcp f.port d) net
      let f' := { f with recv_base := dr.1, out_of_order_buffer := dr.2.1 }
      let net := net.setFlow fid f'
      (net, Flow.send_ack_emit net f')
    else if f.sequence_gen.is_in_window seq_num f.recv_base f.window_size then
      let f' := { f with out_of_order_buffer := insertA seq_num data f.out_of_order_buffer }
      let net := net.setFlow fid f'
      (net, Flow.send_ack_emit net f')
    else
      (net, Flow.send_ack_emit net f)

/-- `Flow.receive_data`: dispatch on `is_ack`; frames that parse as
neither a well-formed ACK nor a well-formed data packet are dropped. -/
def Flow.receive_data (net : Network) (fid : FlowId) (packet : Frame) :
    Network × List Emit :=
  match packet with
  | .ack a => (net.updFlow fid (fun f => f.handle_ack a), [])
  | .dataPkt s d => Flow.handle_data_packet net fid s d
  | _ => (net, [])

/-- `IPCP.receive_data`: an encapsulated frame is forwarded upward (with
the header's flow id) when a higher IPCP exists and is otherwise ignored;
any other frame is counted and handed directly to the application bound to
the flow's port.  Fuel bounds the upward-forwarding chain. -/
def IPCP.receive_data : Nat → Network → IpcpId → Frame → FlowId → Network
  | 0, net, _, _, _ => net
  | fuel+1, net, self_id, data, flow_id =>
    match data with
    | .encap inner_fid _q payload =>
      match (net.ipcp self_id).bind IPCP.higher_ipcp with
      | some h => IPCP.receive_data fuel net h payload inner_fid
      | none => net
    | _ =>
      match net.ipcp self_id with
      | some p =>
        if flow_id ∈ p.flows then
          match net.flow flow_id with
          | some f =>
            let net := net.updFlow flow_id
              (fun g => { g with received_packets := g.received_packets + 1 })
            match lookupA f.port p.port_map with
            | some a => Application.on_data net a data
            | none => net
          | none => net
        else net
      | none => net

/-- Errors raised by `IPCP.send_data`: `ValueError` for an unknown flow id,
`ConnectionError` for a non-ACTIVE flow; `fuelOut` marks exhaustion of the
recursion bound (unreachable on any acyclic layer chain). -/
inductive SendErr where
  | unknownFlow
  | invalidState
  | fuelOut
deriving DecidableEq

/-- `IPCP.send_data`: after the flow-table and FSM-state checks it bumps
`sent_packets` and transmits the raw payload itself — encapsulating
through the lower IPCP when `lower_flow_id` is set, else calling the
destination IPCP's `receive_data` directly.  `Flow.send_data` is never
invoked and no sequence number is produced. -/
def IPCP.send_data : Nat → Network → IpcpId → FlowId → Frame → Except SendErr Network
  | 0, _, _, _, _ => .error .fuelOut
  | fuel+1, net, self_id, flow_id, data =>
    match net.ipcp self_id with
    | none => .error .unknownFlow
    | some p =>
      if flow_id ∈ p.flows then
        match net.flow flow_id with
        | some f =>
          if f.state ≠ FlowState.ACTIVE then .error .invalidState
          else
            let net := net.updFlow flow_id
              (fun g => { g with sent_packets := g.sent_packets + 1 })
            match f.lower_flow_id, p.lower_ipcp with
            | some lid, some lo => IPCP.send_data fuel net lo lid (.encap flow_id f.qos data)
            | _, _ => .ok (IPCP.receive_data fuel net f.dest_ipcp data flow_id)
        | none => .error .unknownFlow
      else .error .unknownFlow

/-- `IPCP._validate_flow_request`: accept unless a requested bandwidth
exceeds what the source DIF has available (the port-occupancy check in the
source is commented out). -/
def IPCP.validate_flow_request (net : Network) (self_id : IpcpId) (f : Flow) : Bool :=
  match f.qos with
  | none => true
  | some q =>
    match q.bandwidth with
    | none => true
    | some b =>
      match (net.ipcp self_id).bind (fun p => net.dif p.dif) with
      | some d => decide (b ≤ d.max_bandwidth - d.allocated_bandwidth)
      | none => true

/-- `Flow._commit_resources` on the flow with id `fid`: reserve bandwidth
in the source DIF and, when distinct, the destination DIF, rolling back on
failure; then, when the source IPCP has a lower IPCP, recursively allocate
a carrying flow through `alloc_lower` (the caller passes
`IPCP.allocate_flow` at one less fuel), rolling the bandwidth back if that
fails.  On success the retransmission task is started. -/
def Flow.commit_resources
    (alloc_lower : Network → IpcpId → IpcpId → Port → Option QoS → Option FlowId × Network)
    (net : Network) (fid : FlowId) : Bool × Network :=
  match net.flow fid with
  | none => (false, net)
  | some f =>
    match net.ipcp f.src_ipcp, net.ipcp f.dest_ipcp with
    | some srcI, some destI =>
      let step1 : Bool × Network :=
        match truthyBandwidth f.qos with
        | none => (true, net)
        | some b =>
          let r1 := net.allocate_bandwidth srcI.dif (some b)
          let r2 := if destI.dif ≠ srcI.dif
                    then r1.2.allocate_bandwidth destI.dif (some b)
                    else (true, r1.2)
          if r1.1 && r2.1 then (true, r2.2)
          else
            let n3 := if r1.1 then r2.2.release_bandwidth srcI.dif (some b) else r2.2
            let n4 := if r2.1 && decide (destI.dif ≠ srcI.dif)
                      then n3.release_bandwidth destI.dif (some b) else n3
            (false, n4)
      if step1.1 = false then (false, step1.2)
      else
        let rollback : Network → Network := fun n =>
          match truthyBandwidth f.qos with
          | none => n
          | some b =>
            let n := n.release_bandwidth srcI.dif (some b)
            if destI.dif ≠ srcI.dif then n.release_bandwidth destI.dif (some b) else n
        match srcI.lower_ipcp with
        | none =>
          (true, step1.2.updFlow fid (fun g => { g with retrans_task := true }))
        | some lo =>
          match destI.lower_ipcp with
          | none => (false, rollback step1.2)
          | some dlo =>
            let r := alloc_lower step1.2 lo dlo f.port f.qos
            match r.1 with
            | none => (false, rollback r.2)
            | some lid =>
              (true, r.2.updFlow fid
                (fun g => { g with lower_flow_id := some lid, retrans_task := true }))
    | _, _ => (false, net)

/-- `IPCP.allocate_flow`: create and register the flow in both endpoints'
tables, validate (rolling back the registration on failure), run the
always-approving request handling, fire `start_allocation` (which lands in
`ACTIVE`), then call `flow._commit_resources()` — whose result the source
discards — and return the flow id. -/
def IPCP.allocate_flow :
    Nat → Network → IpcpId → IpcpId → Port → Option QoS → Option FlowId × Network
  | 0, net, _, _, _, _ => (none, net)
  | fuel+1, net, self_id, dest_id, port, qos =>
    match net.ipcp self_id, net.ipcp dest_id with
    | some _, some _ =>
      let fid := net.next_flow_id
      let flow := Flow.mk0 fid self_id dest_id port qos
      let net := { net with next_flow_id := net.next_flow_id + 1 }
      let net := net.setFlow fid flow
      let net := net.addFlowToTable self_id fid
      let net := net.addFlowToTable dest_id fid
      if IPCP.validate_flow_request net self_id flow then
        let net := net.updFlow fid Flow.start_allocation_active
        let r := Flow.commit_resources
          (fun n a b c d => IPCP.allocate_flow fuel n a b c d) net fid
        (some fid, r.2)
      else
        let net := net.removeFlowFromTable self_id fid
        let net := net.removeFlowFromTable dest_id fid
        (none, net)
    | _, _ => (none, net)

/-- First stage of `IPCP.deallocate_flow`: under Python truthiness of
`flow.qos and flow.qos.bandwidth`, release the bandwidth in the calling
IPCP's DIF and, when distinct, in the destination's DIF. -/
def deallocReleaseBandwidth (net : Network) (p : IPCP) (f : Flow) : Network :=
  match truthyBandwidth f.qos with
  | none => net
  | some b =>
    let net := net.release_bandwidth p.dif (some b)
    match net.ipcp f.dest_ipcp with
    | some dI =>
      if dI.dif ≠ p.dif then net.release_bandwidth dI.dif (some b) else net
    | none => net

/-- Last stage of `IPCP.deallocate_flow`: `del self.flows[flow_id]`, then
`if flow_id in flow.dest_ipcp.flows: del flow.dest_ipcp.flows[flow_id]`. -/
def deallocRemoveTables (net : Network) (self_id dest_id : IpcpId) (fid : FlowId) :
    Network :=
  let net := net.removeFlowFromTable self_id fid
  match net.ipcp dest_id with
  | some dI =>
    if fid ∈ dI.flows then net.removeFlowFromTable dest_id fid else net
  | none => net

/-- `IPCP.deallocate_flow`: when the id is in this IPCP's table, release
bandwidth in this IPCP's DIF (and the destination's DIF when distinct),
recursively deallocate the carrying lower flow, and delete the id from
both endpoints' tables; returns whether the id was known.  The flow object
itself — its FSM and retransmission task — is never touched. -/
def IPCP.deallocate_flow : Nat → Network → IpcpId → FlowId → Bool × Network
  | 0, net, _, _ => (false, net)
  | fuel+1, net, self_id, flow_id =>
    match net.ipcp self_id with
    | none => (false, net)
    | some p =>
      if flow_id ∈ p.flows then
        match net.flow flow_id with
        | none => (false, net)
        | some f =>
          let net := deallocReleaseBandwidth net p f
          let net :=
            match f.lower_flow_id, p.lower_ipcp with
            | some lid, some lo => (IPCP.deallocate_flow fuel net lo lid).2
            | _, _ => net
          (true, deallocRemoveTables net self_id f.dest_ipcp flow_id)
      else (false, net)

/-! ### Concrete networks and flows used by witnesses and counterexamples -/

/-- Claim C1 scenario: source DIF 0 (capacity 100), destination DIF 1
(capacity 10), one IPCP in each, no lower layers. -/
def c1net : Network :=
  { difs := [(0, ⟨100, 0⟩), (1, ⟨10, 0⟩)],
    ipcps := [(0, ⟨0, 0, none, none, [], []⟩), (1, ⟨1, 1, none, none, [], []⟩)],
    flow_heap := [], app_buffers := [], next_flow_id := 0 }

def c1qos : QoS := ⟨some 20, none, 1⟩

/-- Claim C7 scenario: like `c1net` but DIF 0 already carries 50 units of
other flows' reservations. -/
def c7net : Network :=
  { difs := [(0, ⟨100, 50⟩), (1, ⟨10, 0⟩)],
    ipcps := [(0, ⟨0, 0, none, none, [], []⟩), (1, ⟨1, 1, none, none, [], []⟩)],
    flow_heap := [], app_buffers := [], next_flow_id := 0 }

def c7qos : QoS := ⟨some 20, none, 1⟩

/-- Claim C3 counterexample flow: sending window has wrapped
(`send_base = 65530`) with unacked packets 65530, 0 and 2. -/
def c3flow : Flow :=
  { Flow.mk0 0 0 1 5000 none with
      state := .ACTIVE, send_base := 65530, next_seq_num := 3,
      unacked_packets := [(65530, .raw 0), (0, .raw 1), (2, .raw 2)] }

/-- Claim C6 trace start: a fresh ACTIVE flow. -/
def c6flow0 : Flow :=
  { Flow.mk0 0 0 1 5000 none with state := .ACTIVE }

/-- Advance a flow by one successful `Flow.send_data` (used to spell out
the C6 trace; on a non-sent outcome the flow is returned unchanged). -/
def c6afterSend (f : Flow) (d : Frame) : Flow :=
  match f.send_data none d with
  | .sent _ f' _ => f'
  | _ => f

/-- Claim C2/C5 scenario: one DIF, source IPCP 0 and destination IPCP 1
(application 0 bound at port 5000 on the destination), one ACTIVE flow. -/
def c2flow : Flow :=
  { Flow.mk0 0 0 1 5000 none with state := .ACTIVE }

def c2net : Network :=
  { difs := [(0, ⟨100, 0⟩)],
    ipcps := [(0, ⟨0, 0, none, none, [], [0]⟩),
              (1, ⟨1, 0, none, none, [(5000, 0)], [0]⟩)],
    flow_heap := [(0, c2flow)], app_buffers := [(0, [])], next_flow_id := 1 }

/-- Claim C10 scenario: an ACTIVE flow with a 20-unit reservation and a
running retransmission task, registered at both IPCPs of one DIF. -/
def c10flow : Flow :=
  { Flow.mk0 0 0 1 5000 (some ⟨some 20, none, 1⟩) with
      state := .ACTIVE, retrans_task := true }

def c10net : Network :=
  { difs := [(0, ⟨100, 20⟩)],
    ipcps := [(0, ⟨0, 0, none, none, [], [0]⟩),
              (1, ⟨1, 0, none, none, [(5000, 0)], [0]⟩)],
    flow_heap := [(0, c10flow)], app_buffers := [(0, [])], next_flow_id := 1 }

/-- Claim C4 witness scenario: destination application 7 at port 5000,
flow 0 with packets 1 and 2 buffered out of order. -/
def c4flow : Flow :=
  { Flow.mk0 0 0 1 5000 none with
      state := .ACTIVE, out_of_order_buffer := [(1, .raw 11), (2, .raw 12)] }

def c4net : Network :=
  { difs := [(0, ⟨100, 0⟩)],
    ipcps := [(0, ⟨0, 0, none, none, [], [0]⟩),
              (1, ⟨1, 0, none, none, [(5000, 7)], [0]⟩)],
    flow_heap := [(0, c4flow)], app_buffers := [(7, [])], next_flow_id := 1 }

/-- The sender-side sequencing state of a flow: what `Flow.send_data`
would touch (unacked packets, the sequence generator, the window bases).
`IPCP.send_data` leaving this intact for every flow is the observable sign
that it never delegates to `Flow.send_data`. -/
def seqView (f : Flow) : List (Nat × Frame) × SequenceNumber × Nat × Nat :=
  (f.unacked_packets, f.sequence_gen, f.send_base, f.next_seq_num)

/-- The claim's modular interval: `s ∈ [lo, hi] mod 2^16`, expressed on
naturals below `2^16` as distance-from-`lo` comparison. -/
def inModularInterval (lo hi s : Nat) : Prop :=
  (s + 65536 - lo) % 65536 ≤ (hi + 65536 - lo) % 65536

instance (lo hi s : Nat) : Decidable (inModularInterval lo hi s) := by
  unfold inModularInterval
  infer_instance

/-! ### Helper lemmas -/

theorem lookupA_insertA_self {α : Type} (k : Nat) (v : α) (l : List (Nat × α)) :
    lookupA k (insertA k v l) = some v := by
  induction l with
  | nil => simp [insertA, lookupA]
  | cons p rest ih =>
    obtain ⟨a, b⟩ := p
    simp only [insertA]
    by_cases h : a = k
    · rw [if_pos h]
      simp [lookupA]
    · rw [if_neg h]
      simp only [lookupA, if_neg h]
      exact ih

theorem lookupA_insertA_ne {α : Type} (k k' : Nat) (v : α) (l : List (Nat × α))
    (h : k' ≠ k) : lookupA k' (insertA k v l) = lookupA k' l := by
  have hkk : ¬ k = k' := fun e => h e.symm
  induction l with
  | nil => simp [insertA, lookupA, hkk]
  | cons p rest ih =>
    obtain ⟨a, b⟩ := p
    simp only [insertA]
    by_cases ha : a = k
    · rw [if_pos ha]
      simp only [lookupA, if_neg hkk, ha]
    · rw [if_neg ha]
      simp only [lookupA]
      by_cases haq : a = k'
      · simp [haq]
      · simp [haq, ih]

theorem eraseA_cons_self {α : Type} (k a : Nat) (b : α) (rest : List (Nat × α))
    (h : a = k) : eraseA k ((a, b) :: rest) = eraseA k rest := by
  simp [eraseA, List.filter_cons, h]

theorem eraseA_cons_ne {α : Type} (k a : Nat) (b : α) (rest : List (Nat × α))
    (h : ¬ a = k) : eraseA k ((a, b) :: rest) = (a, b) :: eraseA k rest := by
  simp [eraseA, List.filter_cons, h]

theorem lookupA_eraseA_self {α : Type} (k : Nat) (l : List (Nat × α)) :
    lookupA k (eraseA k l) = none := by
  induction l with
  | nil => rfl
  | cons p rest ih =>
    obtain ⟨a, b⟩ := p
    by_cases h : a = k
    · rw [eraseA_cons_self k a b rest h]
      exact ih
    · rw [eraseA_cons_ne k a b rest h]
      simp only [lookupA, if_neg h]
      exact ih

theorem lookupA_eraseA_ne {α : Type} (k k' : Nat) (l : List (Nat × α)) (h : k' ≠ k) :
    lookupA k' (eraseA k l) = lookupA k' l := by
  induction l with
  | nil => rfl
  | cons p rest ih =>
    obtain ⟨a, b⟩ := p
    by_cases ha : a = k
    · have haq : ¬ a = k' := by rw [ha]; exact fun e => h e.symm
      rw [eraseA_cons_self k a b rest ha]
      simp only [lookupA, if_neg haq]
      exact ih
    · rw [eraseA_cons_ne k a b rest ha]
      by_cases haq : a = k'
      · simp only [lookupA, if_pos haq]
      · simp only [lookupA, if_neg haq]
        exact ih

theorem eraseA_length_le {α : Type} (k : Nat) (l : List (Nat × α)) :
    (eraseA k l).length ≤ l.length :=
  List.length_filter_le _ l

theorem eraseA_length_lt {α : Type} (k : Nat) (l : List (Nat × α)) (v : α)
    (h : lookupA k l = some v) : (eraseA k l).length < l.length := by
  induction l with
  | nil => simp [lookupA] at h
  | cons p rest ih =>
    obtain ⟨a, b⟩ := p
    by_cases ha : a = k
    · rw [eraseA_cons_self k a b rest ha]
      have := eraseA_length_le k rest
      simp only [List.length_cons]
      omega
    · simp only [lookupA, if_neg ha] at h
      rw [eraseA_cons_ne k a b rest ha]
      have := ih h
      simp only [List.length_cons]
      omega

theorem minKeyFold_cons (k : Nat) (q : Nat × Frame) (rest : List (Nat × Frame)) :
    minKeyFold k (q :: rest) = minKeyFold (Nat.min k q.1) rest := rfl

theorem minKeyFold_le_seed (l : List (Nat × Frame)) : ∀ k, minKeyFold k l ≤ k := by
  induction l with
  | nil => intro k; exact Nat.le_refl k
  | cons q rest ih =>
    intro k
    rw [minKeyFold_cons]
    exact le_trans (ih _) (Nat.min_le_left _ _)

theorem minKeyFold_le_mem (l : List (Nat × Frame)) (p : Nat × Frame)
    (hp : p ∈ l) : ∀ k, minKeyFold k l ≤ p.1 := by
  induction l with
  | nil => cases hp
  | cons q rest ih =>
    intro k
    rw [minKeyFold_cons]
    rcases List.mem_cons.mp hp with h | h
    · rw [h]
      exact le_trans (minKeyFold_le_seed _ _) (Nat.min_le_right _ _)
    · exact ih h _

theorem minKeyFold_mem (l : List (Nat × Frame)) :
    ∀ k, minKeyFold k l = k ∨ ∃ p ∈ l, minKeyFold k l = p.1 := by
  induction l with
  | nil => intro k; exact .inl rfl
  | cons q rest ih =>
    intro k
    rw [minKeyFold_cons]
    rcases ih (Nat.min k q.1) with h | ⟨p, hp, he⟩
    · by_cases hkq : k ≤ q.1
      · refine .inl ?_
        rw [h]
        exact Nat.min_eq_left hkq
      · refine .inr ⟨q, List.mem_cons_self _ _, ?_⟩
        rw [h]
        exact Nat.min_eq_right (Nat.le_of_not_le hkq)
    · exact .inr ⟨p, List.mem_cons_of_mem _ hp, he⟩

/-! ### Claim theorems -/

/-- C8: for every DIF and every sequence of `allocate_bandwidth` /
`release_bandwidth` calls, `0 ≤ allocated_bandwidth ≤ max_bandwidth` holds
after each step; `allocate_bandwidth (some b)` succeeds iff
`allocated + b ≤ max`, incrementing on success and leaving the DIF
unchanged on failure; `allocate_bandwidth none` succeeds with no state
change; `release_bandwidth` decrements clamped at zero. -/
theorem C8_dif_bandwidth (d : DIF) (b : Nat)
    (hinv : d.allocated_bandwidth ≤ d.max_bandwidth) :
    (∀ ops : List BwOp,
        (d.runOps ops).allocated_bandwidth ≤ (d.runOps ops).max_bandwidth)
    ∧ ((d.allocate_bandwidth (some b)).1 = true ↔
        d.allocated_bandwidth + b ≤ d.max_bandwidth)
    ∧ ((d.allocate_bandwidth (some b)).1 = true →
        ((d.allocate_bandwidth (some b)).2).allocated_bandwidth =
          d.allocated_bandwidth + b)
    ∧ ((d.allocate_bandwidth (some b)).1 = false → (d.allocate_bandwidth (some b)).2 = d)
    ∧ d.allocate_bandwidth none = (true, d)
    ∧ (d.release_bandwidth (some b)).allocated_bandwidth = d.allocated_bandwidth - b := by
  have hop : ∀ e op, e.allocated_bandwidth ≤ e.max_bandwidth →
      (DIF.runOp e op).allocated_bandwidth ≤ (DIF.runOp e op).max_bandwidth := by
    intro e op he
    cases op with
    | alloc ob =>
      cases ob with
      | none => simpa [DIF.runOp, DIF.allocate_bandwidth] using he
      | some x =>
        simp only [DIF.runOp, DIF.allocate_bandwidth]
        split
        · simpa using by omega
        · simpa using he
    | release ob =>
      cases ob with
      | none => simpa [DIF.runOp, DIF.release_bandwidth] using he
      | some x =>
        show e.allocated_bandwidth - x ≤ e.max_bandwidth
        omega
  refine ⟨?_, ?_, ?_, ?_, ?_, ?_⟩
  · intro ops
    induction ops generalizing d with
    | nil => simpa [DIF.runOps] using hinv
    | cons op rest ih =>
      have h1 := hop d op hinv
      simpa [DIF.runOps, List.foldl_cons] using ih _ h1
  · simp only [DIF.allocate_bandwidth]
    split
    · simpa using by omega
    · simpa using by omega
  · simp only [DIF.allocate_bandwidth]
    split
    · simp
    · simp
  · simp only [DIF.allocate_bandwidth]
    split
    · simp
    · simp
  · rfl
  · rfl

theorem C8_dif_bandwidth_witness :
    ((⟨100, 20⟩ : DIF).allocate_bandwidth (some 50)).1 = true :=
  ((C8_dif_bandwidth ⟨100, 20⟩ 50 (by decide)).2.1).mpr (by decide)

/-- C9: `is_in_window` (at the default `max_value = 2^16 - 1`) decides
membership of `seq` in the modular window `[base, base + w)` exactly as
the claim's case split states, for all in-range `seq` and `base` and every
window size. -/
theorem C9_is_in_window (seq base w : Nat) (hs : seq < 65536) (hb : base < 65536) :
    ((SequenceNumber.mk 0 65535).is_in_window seq base w = true) ↔
      (if base + w ≤ 65536 then base ≤ seq ∧ seq < base + w
       else seq ≥ base ∨ seq < (base + w) % 65536) := by
  simp only [SequenceNumber.is_in_window, Bool.or_eq_true, Bool.and_eq_true,
    decide_eq_true_eq]
  split <;> split <;>
    simp only [Bool.or_eq_true, Bool.and_eq_true, decide_eq_true_eq] <;>
    omega

theorem C9_is_in_window_witness :
    (65535 < 65536 ∧ 65530 < 65536) ∧
      ((SequenceNumber.mk 0 65535).is_in_window 65535 65530 10 = true) :=
  ⟨⟨by decide, by decide⟩,
    (C9_is_in_window 65535 65530 10 (by decide) (by decide)).mpr (by decide)⟩

/-- C3 counterexample: with `send_base = 65530` and unacked packets
65530, 0 and 2, an ACK for sequence 1 removes every entry — including
sequence 2, which does not lie in the modular interval `[65530, 1]` — and
then sets `send_base` to `next_seq_num`.  The claim, which says exactly
the interval members are removed, is therefore false here. -/
theorem C3_wrap_over_removal :
    ((2, Frame.raw 2) ∈ c3flow.unacked_packets ∧ ¬ inModularInterval 65530 1 2)
    ∧ (c3flow.handle_ack 1).unacked_packets = []
    ∧ (c3flow.handle_ack 1).send_base = 3 := by
  refine ⟨⟨?_, ?_⟩, ?_, ?_⟩ <;> decide

/-- C3 (amended): `_handle_ack` removes exactly those unacked entries
whose sequence `s` satisfies `ack_seq ≥ s`, or `ack_seq < s` together with
`ack_seq < send_base` (in which latter case every entry is removed, not
only the modular interval `[send_base, ack_seq]`); `send_base` then
becomes the smallest remaining key, or `next_seq_num` when none remain. -/
theorem C3_handle_ack_amended (f : Flow) (ack_seq : Nat) :
    (∀ s d, ((s, d) ∈ (f.handle_ack ack_seq).unacked_packets ↔
        ((s, d) ∈ f.unacked_packets ∧
          ¬ (ack_seq ≥ s ∨ (ack_seq < s ∧ ack_seq < f.send_base)))))
    ∧ ((f.handle_ack ack_seq).unacked_packets = [] →
        (f.handle_ack ack_seq).send_base = f.next_seq_num)
    ∧ ((f.handle_ack ack_seq).unacked_packets ≠ [] →
        (∃ p ∈ (f.handle_ack ack_seq).unacked_packets,
            (f.handle_ack ack_seq).send_base = p.1) ∧
          ∀ p ∈ (f.handle_ack ack_seq).unacked_packets,
            (f.handle_ack ack_seq).send_base ≤ p.1) := by
  refine ⟨?_, ?_, ?_⟩
  · intro s d
    simp only [Flow.handle_ack, List.mem_filter, Bool.not_eq_true', ackCovers,
      Bool.or_eq_false_iff, Bool.and_eq_false_iff, decide_eq_false_iff_not,
      Bool.not_eq_true, not_le, not_lt, ge_iff_le]
    constructor
    · rintro ⟨hm, h1, h2⟩
      refine ⟨hm, ?_⟩
      rcases h2 with h2 | h2 <;> omega
    · rintro ⟨hm, hno⟩
      push_neg at hno
      refine ⟨hm, by omega, ?_⟩
      by_cases hc : ack_seq < s
      · exact .inr (by omega)
      · exact .inl (by omega)
  · intro h
    simp only [Flow.handle_ack] at h ⊢
    generalize hrem : f.unacked_packets.filter
        (fun p => ! ackCovers ack_seq f.send_base p.1) = rem at h ⊢
    match rem, h with
    | [], _ => rfl
  · intro h
    simp only [Flow.handle_ack] at h ⊢
    generalize hrem : f.unacked_packets.filter
        (fun p => ! ackCovers ack_seq f.send_base p.1) = rem at h ⊢
    match rem, h with
    | p :: rest, _ =>
      refine ⟨?_, ?_⟩
      · rcases minKeyFold_mem rest p.1 with he | ⟨q, hq, he⟩
        · exact ⟨p, List.mem_cons_self _ _, he⟩
        · exact ⟨q, List.mem_cons_of_mem _ hq, he⟩
      · intro q hq
        rcases List.mem_cons.mp hq with hh | hh
        · rw [hh]; exact minKeyFold_le_seed _ _
        · exact minKeyFold_le_mem _ _ hh _

theorem C3_handle_ack_amended_witness :
    (c3flow.handle_ack 1).unacked_packets = [] ∧
      (c3flow.handle_ack 1).send_base = c3flow.next_seq_num :=
  ⟨by decide, (C3_handle_ack_amended c3flow 1).2.1 (by decide)⟩

/-- C6: the invariant fails on the code.  A fresh ACTIVE flow sends two
payloads (sequence numbers 0 and 1, both recorded unacked) and then
processes an ACK for sequence 0: `send_base` advances to 1, but
`next_seq_num` — never written anywhere in `rina/flow.py` — remains 0, so
`send_base ≤ next_seq_num` fails in modular order (the modular distance
from `send_base` to `next_seq_num` is 65535, far beyond both the window
size 16 and the serial-order bound 2^15). -/
theorem C6_next_seq_num_stuck :
    ((c6afterSend c6flow0 (.raw 0)).unacked_packets.length = 1)
    ∧ ((c6afterSend (c6afterSend c6flow0 (.raw 0)) (.raw 1)).unacked_packets.length = 2)
    ∧ (((c6afterSend (c6afterSend c6flow0 (.raw 0)) (.raw 1)).handle_ack 0).send_base = 1)
    ∧ (((c6afterSend (c6afterSend c6flow0 (.raw 0)) (.raw 1)).handle_ack 0).next_seq_num = 0)
    ∧ ((((c6afterSend (c6afterSend c6flow0 (.raw 0)) (.raw 1)).handle_ack 0).next_seq_num
          + 65536
          - ((c6afterSend (c6afterSend c6flow0 (.raw 0)) (.raw 1)).handle_ack 0).send_base)
         % 65536 = 65535) := by
  refine ⟨?_, ?_, ?_, ?_, ?_⟩ <;> decide

/-! ### Field-preservation lemmas for the network updaters -/

theorem updIpcp_difs (net : Network) (i : IpcpId) (g : IPCP → IPCP) :
    (net.updIpcp i g).difs = net.difs := by
  simp only [Network.updIpcp]
  split <;> rfl

theorem updIpcp_flow_heap (net : Network) (i : IpcpId) (g : IPCP → IPCP) :
    (net.updIpcp i g).flow_heap = net.flow_heap := by
  simp only [Network.updIpcp]
  split <;> rfl

theorem updIpcp_app_buffers (net : Network) (i : IpcpId) (g : IPCP → IPCP) :
    (net.updIpcp i g).app_buffers = net.app_buffers := by
  simp only [Network.updIpcp]
  split <;> rfl

theorem updDif_ipcps (net : Network) (i : DifId) (g : DIF → DIF) :
    (net.updDif i g).ipcps = net.ipcps := by
  simp only [Network.updDif]
  split <;> rfl

theorem updDif_flow_heap (net : Network) (i : DifId) (g : DIF → DIF) :
    (net.updDif i g).flow_heap = net.flow_heap := by
  simp only [Network.updDif]
  split <;> rfl

theorem updDif_app_buffers (net : Network) (i : DifId) (g : DIF → DIF) :
    (net.updDif i g).app_buffers = net.app_buffers := by
  simp only [Network.updDif]
  split <;> rfl

theorem release_bandwidth_ipcps (net : Network) (i : DifId) (b : Option Nat) :
    (net.release_bandwidth i b).ipcps = net.ipcps :=
  updDif_ipcps net i _

theorem release_bandwidth_flow_heap (net : Network) (i : DifId) (b : Option Nat) :
    (net.release_bandwidth i b).flow_heap = net.flow_heap :=
  updDif_flow_heap net i _

theorem removeFlowFromTable_difs (net : Network) (i : IpcpId) (fid : FlowId) :
    (net.removeFlowFromTable i fid).difs = net.difs :=
  updIpcp_difs net i _

theorem removeFlowFromTable_flow_heap (net : Network) (i : IpcpId) (fid : FlowId) :
    (net.removeFlowFromTable i fid).flow_heap = net.flow_heap :=
  updIpcp_flow_heap net i _

theorem ipcp_updIpcp_some (net : Network) (i : IpcpId) (g : IPCP → IPCP) (p : IPCP)
    (h : net.ipcp i = some p) : (net.updIpcp i g).ipcp i = some (g p) := by
  simp only [Network.ipcp] at h
  simp only [Network.updIpcp, h, Network.ipcp]
  exact lookupA_insertA_self _ _ _

theorem ipcp_updIpcp_ne (net : Network) (i j : IpcpId) (g : IPCP → IPCP)
    (h : j ≠ i) : (net.updIpcp i g).ipcp j = net.ipcp j := by
  simp only [Network.updIpcp, Network.ipcp]
  cases hl : lookupA i net.ipcps with
  | none => rfl
  | some p => exact lookupA_insertA_ne i j (g p) net.ipcps h

theorem updIpcp_none (net : Network) (i : IpcpId) (g : IPCP → IPCP)
    (h : net.ipcp i = none) : net.updIpcp i g = net := by
  simp only [Network.ipcp] at h
  simp only [Network.updIpcp, h]

theorem flow_setFlow_self (net : Network) (i : FlowId) (f : Flow) :
    (net.setFlow i f).flow i = some f := by
  simp only [Network.setFlow, Network.flow]
  exact lookupA_insertA_self _ _ _

theorem flow_setFlow_ne (net : Network) (i j : FlowId) (f : Flow) (h : j ≠ i) :
    (net.setFlow i f).flow j = net.flow j := by
  simp only [Network.setFlow, Network.flow]
  exact lookupA_insertA_ne i j f net.flow_heap h

theorem flow_updFlow_some (net : Network) (i : FlowId) (g : Flow → Flow) (f : Flow)
    (h : net.flow i = some f) : (net.updFlow i g).flow i = some (g f) := by
  simp only [Network.flow] at h
  simp only [Network.updFlow, h]
  exact flow_setFlow_self _ _ _

theorem flow_updFlow_ne (net : Network) (i j : FlowId) (g : Flow → Flow)
    (h : j ≠ i) : (net.updFlow i g).flow j = net.flow j := by
  simp only [Network.updFlow]
  cases hl : lookupA i net.flow_heap with
  | none => rfl
  | some f => exact flow_setFlow_ne _ _ _ _ h

theorem updFlow_ipcps (net : Network) (i : FlowId) (g : Flow → Flow) :
    (net.updFlow i g).ipcps = net.ipcps := by
  simp only [Network.updFlow]
  split <;> rfl

theorem updFlow_difs (net : Network) (i : FlowId) (g : Flow → Flow) :
    (net.updFlow i g).difs = net.difs := by
  simp only [Network.updFlow]
  split <;> rfl

theorem updFlow_app_buffers (net : Network) (i : FlowId) (g : Flow → Flow) :
    (net.updFlow i g).app_buffers = net.app_buffers := by
  simp only [Network.updFlow]
  split <;> rfl

theorem on_data_ipcps (net : Network) (a : AppId) (d : Frame) :
    (Application.on_data net a d).ipcps = net.ipcps := rfl

theorem on_data_difs (net : Network) (a : AppId) (d : Frame) :
    (Application.on_data net a d).difs = net.difs := rfl

theorem on_data_flow_heap (net : Network) (a : AppId) (d : Frame) :
    (Application.on_data net a d).flow_heap = net.flow_heap := rfl

theorem deliver_ipcps (net : Network) (i : IpcpId) (port : Port) (d : Frame) :
    (IPCP.deliver_to_application net i port d).ipcps = net.ipcps := by
  simp only [IPCP.deliver_to_application]
  split
  · split <;> rfl
  · rfl

theorem deliver_difs (net : Network) (i : IpcpId) (port : Port) (d : Frame) :
    (IPCP.deliver_to_application net i port d).difs = net.difs := by
  simp only [IPCP.deliver_to_application]
  split
  · split <;> rfl
  · rfl

theorem deliver_flow_heap (net : Network) (i : IpcpId) (port : Port) (d : Frame) :
    (IPCP.deliver_to_application net i port d).flow_heap = net.flow_heap := by
  simp only [IPCP.deliver_to_application]
  split
  · split <;> rfl
  · rfl

/-! ### Structure lemmas for `IPCP.deallocate_flow` -/

theorem deallocReleaseBandwidth_ipcps (net : Network) (p : IPCP) (f : Flow) :
    (deallocReleaseBandwidth net p f).ipcps = net.ipcps := by
  simp only [deallocReleaseBandwidth]
  split
  · rfl
  · split
    · split
      · rw [release_bandwidth_ipcps, release_bandwidth_ipcps]
      · rw [release_bandwidth_ipcps]
    · rw [release_bandwidth_ipcps]

theorem deallocReleaseBandwidth_flow_heap (net : Network) (p : IPCP) (f : Flow) :
    (deallocReleaseBandwidth net p f).flow_heap = net.flow_heap := by
  simp only [deallocReleaseBandwidth]
  split
  · rfl
  · split
    · split
      · rw [release_bandwidth_flow_heap, release_bandwidth_flow_heap]
      · rw [release_bandwidth_flow_heap]
    · rw [release_bandwidth_flow_heap]

theorem deallocRemoveTables_flow_heap (net : Network) (i j : IpcpId) (fid : FlowId) :
    (deallocRemoveTables net i j fid).flow_heap = net.flow_heap := by
  simp only [deallocRemoveTables]
  split
  · split
    · rw [removeFlowFromTable_flow_heap, removeFlowFromTable_flow_heap]
    · rw [removeFlowFromTable_flow_heap]
  · rw [removeFlowFromTable_flow_heap]

theorem deallocRemoveTables_difs (net : Network) (i j : IpcpId) (fid : FlowId) :
    (deallocRemoveTables net i j fid).difs = net.difs := by
  simp only [deallocRemoveTables]
  split
  · split
    · rw [removeFlowFromTable_difs, removeFlowFromTable_difs]
    · rw [removeFlowFromTable_difs]
  · rw [removeFlowFromTable_difs]

/-- `IPCP.deallocate_flow` never touches the flow heap: the Flow objects
themselves (FSM state, retransmission-task flag, buffers) are left as they
were. -/
theorem deallocate_flow_heap_eq :
    ∀ (fuel : Nat) (net : Network) (i : IpcpId) (fid : FlowId),
      ((IPCP.deallocate_flow fuel net i fid).2).flow_heap = net.flow_heap := by
  intro fuel
  induction fuel with
  | zero => intro net i fid; rfl
  | succ n ih =>
    intro net i fid
    simp only [IPCP.deallocate_flow]
    split
    · rfl
    · split
      · split
        · rfl
        · rw [deallocRemoveTables_flow_heap]
          split
          · rw [ih, deallocReleaseBandwidth_flow_heap]
          · rw [deallocReleaseBandwidth_flow_heap]
      · rfl

/-- Removing a flow-table entry never adds entries to any IPCP's table. -/
theorem removeFlowFromTable_subset (net : Network) (i : IpcpId) (fid : FlowId)
    (j : IpcpId) (q' : IPCP) (h : (net.removeFlowFromTable i fid).ipcp j = some q') :
    ∃ q, net.ipcp j = some q ∧ ∀ g ∈ q'.flows, g ∈ q.flows := by
  by_cases hj : j = i
  · subst hj
    cases hq : net.ipcp j with
    | none =>
      rw [Network.removeFlowFromTable, updIpcp_none net j _ hq] at h
      rw [h] at hq
      cases hq
    | some q =>
      refine ⟨q, rfl, ?_⟩
      have := ipcp_updIpcp_some net j
        (fun p => { p with flows := p.flows.filter (fun x => decide (x ≠ fid)) }) q hq
      rw [Network.removeFlowFromTable] at h
      rw [this] at h
      cases h
      intro g hg
      exact List.mem_of_mem_filter hg
  · rw [Network.removeFlowFromTable] at h
    rw [ipcp_updIpcp_ne net i j _ hj] at h
    exact ⟨q', h, fun g hg => hg⟩

/-- After `removeFlowFromTable i fid`, `fid` is not in `i`'s table. -/
theorem removeFlowFromTable_not_mem (net : Network) (i : IpcpId) (fid : FlowId)
    (q' : IPCP) (h : (net.removeFlowFromTable i fid).ipcp i = some q') :
    fid ∉ q'.flows := by
  cases hq : net.ipcp i with
  | none =>
    rw [Network.removeFlowFromTable, updIpcp_none net i _ hq] at h
    rw [h] at hq
    cases hq
  | some q =>
    have := ipcp_updIpcp_some net i
      (fun p => { p with flows := p.flows.filter (fun x => decide (x ≠ fid)) }) q hq
    rw [Network.removeFlowFromTable] at h
    rw [this] at h
    cases h
    intro hg
    have := List.of_mem_filter hg
    simp at this

theorem deallocRemoveTables_subset (net : Network) (i j : IpcpId) (fid : FlowId)
    (m : IpcpId) (q' : IPCP) (h : (deallocRemoveTables net i j fid).ipcp m = some q') :
    ∃ q, net.ipcp m = some q ∧ ∀ g ∈ q'.flows, g ∈ q.flows := by
  simp only [deallocRemoveTables] at h
  split at h
  · split at h
    · obtain ⟨q1, hq1, hs1⟩ := removeFlowFromTable_subset _ _ _ _ _ h
      obtain ⟨q2, hq2, hs2⟩ := removeFlowFromTable_subset _ _ _ _ _ hq1
      exact ⟨q2, hq2, fun g hg => hs2 g (hs1 g hg)⟩
    · exact removeFlowFromTable_subset _ _ _ _ _ h
  · exact removeFlowFromTable_subset _ _ _ _ _ h

/-- `deallocate_flow` never adds entries to any IPCP's flow table. -/
theorem deallocate_flow_table_subset :
    ∀ (fuel : Nat) (net : Network) (i : IpcpId) (fid : FlowId) (j : IpcpId) (q' : IPCP),
      ((IPCP.deallocate_flow fuel net i fid).2).ipcp j = some q' →
        ∃ q, net.ipcp j = some q ∧ ∀ g ∈ q'.flows, g ∈ q.flows := by
  intro fuel
  induction fuel with
  | zero => intro net i fid j q' h; exact ⟨q', h, fun g hg => hg⟩
  | succ n ih =>
    intro net i fid j q' h
    simp only [IPCP.deallocate_flow] at h
    split at h
    · exact ⟨q', h, fun g hg => hg⟩
    · rename_i p hp
      split at h
      · split at h
        · exact ⟨q', h, fun g hg => hg⟩
        · rename_i f hf
          obtain ⟨q1, hq1, hs1⟩ := deallocRemoveTables_subset _ _ _ _ _ _ h
          split at hq1
          · obtain ⟨q2, hq2, hs2⟩ := ih _ _ _ _ _ hq1
            have hq2' : net.ipcp j = some q2 := by
              simp only [Network.ipcp] at hq2 ⊢
              rw [deallocReleaseBandwidth_ipcps net p f] at hq2
              exact hq2
            exact ⟨q2, hq2', fun g hg => hs2 g (hs1 g hg)⟩
          · have hq1' := hq1
            simp only [Network.ipcp] at hq1'
            rw [show (deallocReleaseBandwidth net p f).ipcps = net.ipcps from
              deallocReleaseBandwidth_ipcps net p f] at hq1'
            exact ⟨q1, hq1', hs1⟩
      · exact ⟨q', h, fun g hg => hg⟩

theorem dif_updDif_some (net : Network) (i : DifId) (g : DIF → DIF) (d : DIF)
    (h : net.dif i = some d) : (net.updDif i g).dif i = some (g d) := by
  simp only [Network.dif] at h
  simp only [Network.updDif, h, Network.dif]
  exact lookupA_insertA_self _ _ _

theorem dif_updDif_ne (net : Network) (i j : DifId) (g : DIF → DIF)
    (h : j ≠ i) : (net.updDif i g).dif j = net.dif j := by
  simp only [Network.updDif, Network.dif]
  cases hl : lookupA i net.difs with
  | none => rfl
  | some d => exact lookupA_insertA_ne i j (g d) net.difs h

theorem dif_release_self (net : Network) (i : DifId) (b : Nat) (d : DIF)
    (h : net.dif i = some d) :
    (net.release_bandwidth i (some b)).dif i =
      some { d with allocated_bandwidth := d.allocated_bandwidth - b } := by
  have := dif_updDif_some net i (fun e => e.release_bandwidth (some b)) d h
  simpa [Network.release_bandwidth, DIF.release_bandwidth] using this

theorem dif_release_ne (net : Network) (i j : DifId) (b : Option Nat)
    (h : j ≠ i) : (net.release_bandwidth i b).dif j = net.dif j :=
  dif_updDif_ne net i j _ h

theorem deallocReleaseBandwidth_eq_none (net : Network) (p : IPCP) (f : Flow)
    (hb : truthyBandwidth f.qos = none) : deallocReleaseBandwidth net p f = net := by
  simp only [deallocReleaseBandwidth, hb]

theorem deallocReleaseBandwidth_eq_two (net : Network) (p : IPCP) (f : Flow) (b : Nat)
    (dd : IPCP) (hb : truthyBandwidth f.qos = some b)
    (hdd : net.ipcp f.dest_ipcp = some dd) (hne : dd.dif ≠ p.dif) :
    deallocReleaseBandwidth net p f =
      (net.release_bandwidth p.dif (some b)).release_bandwidth dd.dif (some b) := by
  have hdd' : (net.release_bandwidth p.dif (some b)).ipcp f.dest_ipcp = some dd := by
    simp only [Network.ipcp] at hdd ⊢
    rw [show (net.release_bandwidth p.dif (some b)).ipcps = net.ipcps from
      release_bandwidth_ipcps net p.dif (some b)]
    exact hdd
  simp only [deallocReleaseBandwidth, hb, hdd', if_pos hne]

theorem deallocReleaseBandwidth_eq_one (net : Network) (p : IPCP) (f : Flow) (b : Nat)
    (dd : IPCP) (hb : truthyBandwidth f.qos = some b)
    (hdd : net.ipcp f.dest_ipcp = some dd) (heq : dd.dif = p.dif) :
    deallocReleaseBandwidth net p f = net.release_bandwidth p.dif (some b) := by
  have hdd' : (net.release_bandwidth p.dif (some b)).ipcp f.dest_ipcp = some dd := by
    simp only [Network.ipcp] at hdd ⊢
    rw [show (net.release_bandwidth p.dif (some b)).ipcps = net.ipcps from
      release_bandwidth_ipcps net p.dif (some b)]
    exact hdd
  have : ¬ dd.dif ≠ p.dif := by simp [heq]
  simp only [deallocReleaseBandwidth, hb, hdd', if_neg this]

theorem deallocRemoveTables_not_mem_self (net : Network) (i j : IpcpId) (fid : FlowId)
    (q' : IPCP) (h : (deallocRemoveTables net i j fid).ipcp i = some q') :
    fid ∉ q'.flows := by
  simp only [deallocRemoveTables] at h
  split at h
  · split at h
    · by_cases hji : i = j
      · subst hji
        exact removeFlowFromTable_not_mem _ _ _ _ h
      · rw [Network.removeFlowFromTable, ipcp_updIpcp_ne _ j i _ hji] at h
        exact removeFlowFromTable_not_mem _ _ _ _ h
    · exact removeFlowFromTable_not_mem _ _ _ _ h
  · exact removeFlowFromTable_not_mem _ _ _ _ h

theorem deallocRemoveTables_not_mem_dest (net : Network) (i j : IpcpId) (fid : FlowId)
    (q' : IPCP) (h : (deallocRemoveTables net i j fid).ipcp j = some q') :
    fid ∉ q'.flows := by
  simp only [deallocRemoveTables] at h
  split at h
  · rename_i dI hdI
    split at h
    · exact removeFlowFromTable_not_mem _ _ _ _ h
    · rename_i hnm
      rw [hdI] at h
      cases h
      exact hnm
  · rename_i hdI
    rw [hdI] at h
    cases h

/-- One unfolding of `IPCP.deallocate_flow` on the branch where the flow is
known: `fid` is gone from the calling IPCP's table afterwards (provided the
flow object exists in the heap, as it does for every reachable table
entry). -/
theorem deallocate_flow_removes (fuel : Nat) (net : Network) (i : IpcpId)
    (fid : FlowId) (fl : Flow) (hfl : net.flow fid = some fl) :
    ∀ q', ((IPCP.deallocate_flow (fuel+1) net i fid).2).ipcp i = some q' →
      fid ∉ q'.flows := by
  intro q' h
  simp only [IPCP.deallocate_flow] at h
  split at h
  · rename_i hnone
    rw [hnone] at h
    cases h
  · rename_i p hp
    split at h
    · rw [hfl] at h
      simp only [] at h
      exact deallocRemoveTables_not_mem_self _ _ _ _ _ h
    · rename_i hnm
      rw [hp] at h
      cases h
      exact hnm

/-- C1 (evaluation at the failing input): with source DIF capacity 100 and
destination DIF capacity 10 in distinct DIFs, `allocate_flow` with a
20-unit QoS passes validation, `_commit_resources` fails at the
destination DIF and rolls its own reservation back — yet `allocate_flow`,
which discards the commit result, still returns the flow id and leaves the
flow registered in both flow tables (the never-started retransmission task
witnesses the failed commit).  Bandwidth itself is back at its pre-call
value in both DIFs. -/
theorem C1_commit_failure_ignored :
    (IPCP.allocate_flow 3 c1net 0 1 5000 (some c1qos)).1 = some 0
    ∧ ((IPCP.allocate_flow 3 c1net 0 1 5000 (some c1qos)).2.ipcp 0).map
        (fun p => decide (0 ∈ p.flows)) = some true
    ∧ ((IPCP.allocate_flow 3 c1net 0 1 5000 (some c1qos)).2.ipcp 1).map
        (fun p => decide (0 ∈ p.flows)) = some true
    ∧ ((IPCP.allocate_flow 3 c1net 0 1 5000 (some c1qos)).2.dif 0).map
        DIF.allocated_bandwidth = some 0
    ∧ ((IPCP.allocate_flow 3 c1net 0 1 5000 (some c1qos)).2.dif 1).map
        DIF.allocated_bandwidth = some 0
    ∧ ((IPCP.allocate_flow 3 c1net 0 1 5000 (some c1qos)).2.flow 0).map
        Flow.retrans_task = some false
    ∧ (Flow.commit_resources (fun n a b c d => IPCP.allocate_flow 2 n a b c d)
        (IPCP.allocate_flow 3 c1net 0 1 5000 (some c1qos)).2 0).1 = false := by
  refine ⟨?_, ?_, ?_, ?_, ?_, ?_, ?_⟩ <;> decide

/-- C7 (evaluation at the failing input): DIF 0 starts at 50/100 from
other flows; a cross-DIF `allocate_flow` with 20-unit QoS pseudo-succeeds
(commit failed and already rolled back, but the id is returned), and the
immediate `deallocate_flow` then releases 20 units that were never held,
leaving DIF 0 at 30 instead of the original 50. -/
theorem C7_roundtrip_not_restored :
    (c7net.dif 0).map DIF.allocated_bandwidth = some 50
    ∧ (IPCP.allocate_flow 3 c7net 0 1 5000 (some c7qos)).1 = some 0
    ∧ (IPCP.deallocate_flow 3
        (IPCP.allocate_flow 3 c7net 0 1 5000 (some c7qos)).2 0 0).1 = true
    ∧ ((IPCP.deallocate_flow 3
        (IPCP.allocate_flow 3 c7net 0 1 5000 (some c7qos)).2 0 0).2.dif 0).map
        DIF.allocated_bandwidth = some 30 := by
  refine ⟨?_, ?_, ?_, ?_⟩ <;> decide

/-- C10 counterexample: deallocating a known ACTIVE flow returns `true`
and clears both tables, but the flow object still has FSM state `ACTIVE`
(not `CLOSED`) and its retransmission-task flag still set —
`deallocate_flow` never fires the FSM `deallocate` event, so the claim's
"retransmission task is canceled and the FSM reaches CLOSED" is false. -/
theorem C10_fsm_not_closed :
    (IPCP.deallocate_flow 3 c10net 0 0).1 = true
    ∧ ((IPCP.deallocate_flow 3 c10net 0 0).2.flow 0).map Flow.state =
        some FlowState.ACTIVE
    ∧ ((IPCP.deallocate_flow 3 c10net 0 0).2.flow 0).map Flow.retrans_task = some true
    ∧ ((IPCP.deallocate_flow 3 c10net 0 0).2.ipcp 0).map
        (fun p => decide (0 ∈ p.flows)) = some false := by
  refine ⟨?_, ?_, ?_, ?_⟩ <;> decide

/-- C10 (amended): after `deallocate_flow(f)` on a flow present in the
table, `f` is absent from both endpoints' flow tables, the bandwidth
reservation is released in the caller's DIF and (when distinct) the
destination's DIF, any carrying lower flow is removed from the lower
IPCP's table, the call returns `true`, and a repeated call returns
`false`; however the flow object itself is untouched — its FSM state and
retransmission task are exactly as before (in particular not `CLOSED` and
not canceled). -/
theorem C10_deallocate_amended (n : Nat) (net : Network) (self_id : IpcpId)
    (flow_id : FlowId) (p : IPCP) (f : Flow)
    (hp : net.ipcp self_id = some p) (hmem : flow_id ∈ p.flows)
    (hf : net.flow flow_id = some f) :
    (IPCP.deallocate_flow (n+2) net self_id flow_id).1 = true
    ∧ (IPCP.deallocate_flow (n+2) net self_id flow_id).2.flow flow_id = some f
    ∧ (∀ q', (IPCP.deallocate_flow (n+2) net self_id flow_id).2.ipcp self_id = some q' →
        flow_id ∉ q'.flows)
    ∧ (∀ q', (IPCP.deallocate_flow (n+2) net self_id flow_id).2.ipcp f.dest_ipcp =
          some q' → flow_id ∉ q'.flows)
    ∧ (∀ lid lo fl, f.lower_flow_id = some lid → p.lower_ipcp = some lo →
        net.flow lid = some fl →
        ∀ q', (IPCP.deallocate_flow (n+2) net self_id flow_id).2.ipcp lo = some q' →
          lid ∉ q'.flows)
    ∧ (∀ b dd d0, f.lower_flow_id = none → truthyBandwidth f.qos = some b →
        net.ipcp f.dest_ipcp = some dd → dd.dif ≠ p.dif → net.dif p.dif = some d0 →
        (IPCP.deallocate_flow (n+2) net self_id flow_id).2.dif p.dif =
          some { d0 with allocated_bandwidth := d0.allocated_bandwidth - b })
    ∧ (∀ b dd d1, f.lower_flow_id = none → truthyBandwidth f.qos = some b →
        net.ipcp f.dest_ipcp = some dd → dd.dif ≠ p.dif → net.dif dd.dif = some d1 →
        (IPCP.deallocate_flow (n+2) net self_id flow_id).2.dif dd.dif =
          some { d1 with allocated_bandwidth := d1.allocated_bandwidth - b })
    ∧ (∀ b dd d0, f.lower_flow_id = none → truthyBandwidth f.qos = some b →
        net.ipcp f.dest_ipcp = some dd → dd.dif = p.dif → net.dif p.dif = some d0 →
        (IPCP.deallocate_flow (n+2) net self_id flow_id).2.dif p.dif =
          some { d0 with allocated_bandwidth := d0.allocated_bandwidth - b })
    ∧ (f.lower_flow_id = none → truthyBandwidth f.qos = none →
        (IPCP.deallocate_flow (n+2) net self_id flow_id).2.difs = net.difs)
    ∧ (IPCP.deallocate_flow (n+2)
        (IPCP.deallocate_flow (n+2) net self_id flow_id).2 self_id flow_id).1 = false := by
  have hR : IPCP.deallocate_flow (n+2) net self_id flow_id =
      (true, deallocRemoveTables
        (match f.lower_flow_id, p.lower_ipcp with
         | some lid, some lo =>
             (IPCP.deallocate_flow (n+1) (deallocReleaseBandwidth net p f) lo lid).2
         | _, _ => deallocReleaseBandwidth net p f)
        self_id f.dest_ipcp flow_id) := by
    show IPCP.deallocate_flow (n+1+1) net self_id flow_id = _
    simp only [IPCP.deallocate_flow, hp, hf, if_pos hmem]
  have hHeap : (IPCP.deallocate_flow (n+2) net self_id flow_id).2.flow_heap =
      net.flow_heap := deallocate_flow_heap_eq _ _ _ _
  have hTrue : (IPCP.deallocate_flow (n+2) net self_id flow_id).1 = true := by
    rw [hR]
  have hFlowSame : (IPCP.deallocate_flow (n+2) net self_id flow_id).2.flow flow_id =
      some f := by
    simp only [Network.flow] at hf ⊢
    rw [hHeap]
    exact hf
  have hSelfOut : ∀ q',
      (IPCP.deallocate_flow (n+2) net self_id flow_id).2.ipcp self_id = some q' →
        flow_id ∉ q'.flows := by
    intro q' hq'
    rw [hR] at hq'
    exact deallocRemoveTables_not_mem_self _ _ _ _ _ hq'
  refine ⟨hTrue, hFlowSame, hSelfOut, ?_, ?_, ?_, ?_, ?_, ?_, ?_⟩
  · intro q' hq'
    rw [hR] at hq'
    exact deallocRemoveTables_not_mem_dest _ _ _ _ _ hq'
  · intro lid lo fl hlid hlo hfl q' hq'
    rw [hR] at hq'
    simp only [hlid, hlo] at hq'
    obtain ⟨q1, hq1, hs1⟩ := deallocRemoveTables_subset _ _ _ _ _ _ hq'
    have hfl1 : (deallocReleaseBandwidth net p f).flow lid = some fl := by
      simp only [Network.flow] at hfl ⊢
      rw [deallocReleaseBandwidth_flow_heap]
      exact hfl
    have := deallocate_flow_removes n (deallocReleaseBandwidth net p f) lo lid fl hfl1
      q1 hq1
    intro hin
    exact this (hs1 _ hin)
  · intro b dd d0 hlow hb hdd hne hd0
    rw [hR]
    simp only [hlow]
    have hD : (deallocRemoveTables
        ((net.release_bandwidth p.dif (some b)).release_bandwidth dd.dif (some b))
        self_id f.dest_ipcp flow_id).difs =
        ((net.release_bandwidth p.dif (some b)).release_bandwidth dd.dif (some b)).difs :=
      deallocRemoveTables_difs _ _ _ _
    rw [deallocReleaseBandwidth_eq_two net p f b dd hb hdd hne]
    simp only [Network.dif] at hd0 ⊢
    rw [hD]
    have h1 : (net.release_bandwidth p.dif (some b)).dif p.dif =
        some { d0 with allocated_bandwidth := d0.allocated_bandwidth - b } :=
      dif_release_self net p.dif b d0 hd0
    have h2 := dif_release_ne (net.release_bandwidth p.dif (some b)) dd.dif p.dif
      (some b) (fun e => hne e.symm)
    simp only [Network.dif] at h1 h2
    rw [h2, h1]
  · intro b dd d1 hlow hb hdd hne hd1
    rw [hR]
    simp only [hlow]
    have hD : ∀ m : Network, (deallocRemoveTables m self_id f.dest_ipcp flow_id).difs =
        m.difs := fun m => deallocRemoveTables_difs _ _ _ _
    rw [deallocReleaseBandwidth_eq_two net p f b dd hb hdd hne]
    simp only [Network.dif] at hd1 ⊢
    rw [hD]
    have h1 := dif_release_ne net p.dif dd.dif (some b) hne
    simp only [Network.dif] at h1
    have h2 : ((net.release_bandwidth p.dif (some b)).release_bandwidth dd.dif
        (some b)).dif dd.dif =
        some { d1 with allocated_bandwidth := d1.allocated_bandwidth - b } := by
      apply dif_release_self
      simp only [Network.dif]
      rw [h1]
      exact hd1
    simp only [Network.dif] at h2
    exact h2
  · intro b dd d0 hlow hb hdd heq hd0
    rw [hR]
    simp only [hlow]
    have hD : ∀ m : Network, (deallocRemoveTables m self_id f.dest_ipcp flow_id).difs =
        m.difs := fun m => deallocRemoveTables_difs _ _ _ _
    rw [deallocReleaseBandwidth_eq_one net p f b dd hb hdd heq]
    simp only [Network.dif] at hd0 ⊢
    rw [hD]
    have h1 := dif_release_self net p.dif b d0 hd0
    simp only [Network.dif] at h1
    exact h1
  · intro hlow hb
    rw [hR]
    simp only [hlow]
    rw [deallocReleaseBandwidth_eq_none net p f hb]
    exact deallocRemoveTables_difs _ _ _ _
  · cases hq : (IPCP.deallocate_flow (n+2) net self_id flow_id).2.ipcp self_id with
    | none =>
      generalize hN : (IPCP.deallocate_flow (n+2) net self_id flow_id).2 = N at hq ⊢
      show (IPCP.deallocate_flow (n+1+1) N self_id flow_id).1 = false
      simp only [IPCP.deallocate_flow, hq]
    | some q' =>
      have hnm := hSelfOut q' hq
      generalize hN : (IPCP.deallocate_flow (n+2) net self_id flow_id).2 = N at hq ⊢
      show (IPCP.deallocate_flow (n+1+1) N self_id flow_id).1 = false
      simp only [IPCP.deallocate_flow, hq, if_neg hnm]

theorem C10_deallocate_amended_witness :
    (IPCP.deallocate_flow 3 c10net 0 0).1 = true
    ∧ (IPCP.deallocate_flow 3 c10net 0 0).2.flow 0 = some c10flow
    ∧ (IPCP.deallocate_flow 3 (IPCP.deallocate_flow 3 c10net 0 0).2 0 0).1 = false := by
  have h := C10_deallocate_amended 1 c10net 0 0
    ⟨0, 0, none, none, [], [0]⟩ c10flow (by rfl) (by decide) (by rfl)
  exact ⟨h.1, h.2.1, h.2.2.2.2.2.2.2.2.2⟩

/-! ### Sequencing-state preservation through the IPCP data path -/

theorem flow_on_data (net : Network) (a : AppId) (d : Frame) (g : FlowId) :
    (Application.on_data net a d).flow g = net.flow g := by
  simp only [Network.flow, on_data_flow_heap]

/-- `IPCP.receive_data` never touches any flow's sender-side sequencing
state: it only bumps `received_packets` and appends to an application
buffer. -/
theorem receive_preserves_seqView :
    ∀ (fuel : Nat) (net : Network) (i : IpcpId) (d : Frame) (fid g : FlowId),
      (((IPCP.receive_data fuel net i d fid).flow g).map seqView) =
        ((net.flow g).map seqView) := by
  intro fuel
  induction fuel with
  | zero => intro net i d fid g; rfl
  | succ n ih =>
    intro net i d fid g
    have hbody : ∀ (m : Network),
        (((match m.ipcp i with
          | some p =>
            if fid ∈ p.flows then
              match m.flow fid with
              | some f =>
                let m2 := m.updFlow fid
                  (fun h => { h with received_packets := h.received_packets + 1 })
                match lookupA f.port p.port_map with
                | some a => Application.on_data m2 a d
                | none => m2
              | none => m
            else m
          | none => m : Network).flow g).map seqView) = ((m.flow g).map seqView) := by
      intro m
      cases hip : m.ipcp i with
      | none => rfl
      | some p =>
        simp only []
        by_cases hmem : fid ∈ p.flows
        · rw [if_pos hmem]
          cases hfl : m.flow fid with
          | none => rfl
          | some f =>
            simp only []
            have hupd : (((m.updFlow fid
                (fun h => { h with received_packets := h.received_packets + 1 })).flow g).map
                  seqView) = ((m.flow g).map seqView) := by
              by_cases hg : g = fid
              · subst hg
                rw [flow_updFlow_some m g _ f hfl, hfl]
                rfl
              · rw [flow_updFlow_ne m fid g _ hg]
            cases hpm : lookupA f.port p.port_map with
            | none => exact hupd
            | some a =>
              simp only []
              rw [flow_on_data]
              exact hupd
        · rw [if_neg hmem]
    cases d with
    | encap ifid q pl =>
      simp only [IPCP.receive_data]
      cases hh : (net.ipcp i).bind IPCP.higher_ipcp with
      | none => simp only [hh]
      | some h =>
        simp only [hh]
        exact ih net h pl ifid g
    | raw x =>
      simp only [IPCP.receive_data]
      exact hbody net
    | dataPkt s dd =>
      simp only [IPCP.receive_data]
      exact hbody net
    | ack a =>
      simp only [IPCP.receive_data]
      exact hbody net

/-- `IPCP.send_data` (on success) never touches any flow's sender-side
sequencing state either: it bumps `sent_packets` and hands the raw payload
to `IPCP.receive_data`. -/
theorem send_preserves_seqView :
    ∀ (fuel : Nat) (net : Network) (i : IpcpId) (fid : FlowId) (d : Frame)
      (net' : Network), IPCP.send_data fuel net i fid d = .ok net' →
      ∀ g, ((net'.flow g).map seqView) = ((net.flow g).map seqView) := by
  intro fuel
  induction fuel with
  | zero => intro net i fid d net' h g; cases h
  | succ n ih =>
    intro net i fid d net' h g
    simp only [IPCP.send_data] at h
    split at h
    · cases h
    · rename_i p hp
      split at h
      · split at h
        · rename_i f hf
          split at h
          · cases h
          · have hupd : ∀ gg, (((net.updFlow fid
                (fun h => { h with sent_packets := h.sent_packets + 1 })).flow gg).map
                  seqView) = ((net.flow gg).map seqView) := by
              intro gg
              by_cases hg : gg = fid
              · subst hg
                rw [flow_updFlow_some net gg _ f hf, hf]
                rfl
              · rw [flow_updFlow_ne net fid gg _ hg]
            split at h
            · rename_i lid lo hlid hlo
              have := ih _ _ _ _ _ h g
              rw [this, hupd g]
            · cases h
              rw [receive_preserves_seqView, hupd g]
        · cases h
      · cases h

/-- C2 counterexample: on an ACTIVE flow with empty window,
`Flow.send_data` would assign sequence number 0 and record one unacked
packet — but `IPCP.send_data` leaves the flow's unacked set empty and its
sequence counter at 0, returns no sequence number, and hands the raw
(unsequenced) payload straight to the destination application's buffer.
The claim's "delegates to Flow.send_data ... and returns the sequence
number" is false at this input. -/
theorem C2_no_flow_delegation :
    (match c2flow.send_data none (Frame.raw 7) with
      | .sent s g _ => (s, g.unacked_packets.length)
      | _ => (99, 99)) = (0, 1)
    ∧ (match IPCP.send_data 3 c2net 0 0 (Frame.raw 7) with
        | .ok m => (m.flow 0).map (fun f => f.unacked_packets.length)
        | .error _ => none) = some 0
    ∧ (match IPCP.send_data 3 c2net 0 0 (Frame.raw 7) with
        | .ok m => (m.flow 0).map (fun f => f.sequence_gen.value)
        | .error _ => none) = some 0
    ∧ (match IPCP.send_data 3 c2net 0 0 (Frame.raw 7) with
        | .ok m => lookupA 0 m.app_buffers
        | .error _ => none) = some [Frame.raw 7] := by
  refine ⟨?_, ?_, ?_, ?_⟩ <;> decide

/-- C2 (amended): `IPCP.send_data` raises `UnknownFlow` (`ValueError`)
when the id is absent, `InvalidState` (`ConnectionError`) when the flow's
FSM is not `ACTIVE`; otherwise it transmits the raw payload itself
(encapsulating via the lower IPCP when `lower_flow_id` is set) and — never
invoking `Flow.send_data` — returns no sequence number and leaves every
flow's sequencing state (unacked packets, sequence generator, window
bases) unchanged. -/
theorem C2_send_data_dispatch (fuel : Nat) (net : Network) (self_id : IpcpId)
    (flow_id : FlowId) (data : Frame) (p : IPCP)
    (hp : net.ipcp self_id = some p) :
    (flow_id ∉ p.flows →
      IPCP.send_data (fuel+1) net self_id flow_id data = .error .unknownFlow)
    ∧ (∀ f, net.flow flow_id = some f → flow_id ∈ p.flows →
        f.state ≠ FlowState.ACTIVE →
        IPCP.send_data (fuel+1) net self_id flow_id data = .error .invalidState)
    ∧ (∀ net', IPCP.send_data (fuel+1) net self_id flow_id data = .ok net' →
        ∀ g, ((net'.flow g).map seqView) = ((net.flow g).map seqView)) := by
  refine ⟨?_, ?_, ?_⟩
  · intro hnm
    simp only [IPCP.send_data, hp, if_neg hnm]
  · intro f hf hmem hst
    simp only [IPCP.send_data, hp, if_pos hmem, hf, if_pos hst]
  · intro net' h g
    exact send_preserves_seqView (fuel+1) net self_id flow_id data net' h g

theorem C2_send_data_dispatch_witness :
    IPCP.send_data 3 c2net 0 99 (Frame.raw 7) = .error .unknownFlow :=
  (C2_send_data_dispatch 2 c2net 0 99 (Frame.raw 7)
    ⟨0, 0, none, none, [], [0]⟩ (by rfl)).1 (by decide)

/-- C5 counterexample: an out-of-window... rather, an out-of-order data
packet (`seq 5`, `recv_base 0`, window 16) arriving at the destination
IPCP is appended verbatim — still framed — to the application's buffer,
while the flow's `recv_base` and `out_of_order_buffer` stay untouched and
no ACK path runs; `Flow.receive_data` on the same input would instead
buffer `(5, payload)` in `out_of_order_buffer`.  An encapsulated frame at
an IPCP with no higher IPCP is dropped outright, not unwrapped.  Both
refute the claim's "handed to Flow.receive_data". -/
theorem C5_no_flow_receive :
    ((IPCP.receive_data 3 c2net 1 (Frame.dataPkt 5 (Frame.raw 9)) 0).flow 0).map
        Flow.out_of_order_buffer = some []
    ∧ ((IPCP.receive_data 3 c2net 1 (Frame.dataPkt 5 (Frame.raw 9)) 0).flow 0).map
        Flow.recv_base = some 0
    ∧ lookupA 0
        (IPCP.receive_data 3 c2net 1 (Frame.dataPkt 5 (Frame.raw 9)) 0).app_buffers =
        some [Frame.dataPkt 5 (Frame.raw 9)]
    ∧ ((Flow.receive_data c2net 0 (Frame.dataPkt 5 (Frame.raw 9))).1.flow 0).map
        Flow.out_of_order_buffer = some [(5, Frame.raw 9)]
    ∧ IPCP.receive_data 3 c2net 1 (Frame.encap 0 none (Frame.dataPkt 0 (Frame.raw 1))) 0
        = c2net := by
  refine ⟨?_, ?_, ?_, ?_, ?_⟩ <;> decide

/-- C5 (amended): `IPCP.receive_data` forwards an encapsulated frame
upward with the header's flow id when `higher_ipcp` is set; with no higher
IPCP the encapsulated frame is dropped (not unwrapped); and a
non-encapsulated frame is not handed to `Flow.receive_data` but counted
(`received_packets`) and delivered directly — still framed — to the
application bound to the flow's port, leaving the flow's receive state
(`recv_base`, `out_of_order_buffer`) and sender state untouched. -/
theorem C5_receive_dispatch (fuel : Nat) (net : Network) (self_id : IpcpId)
    (fid : FlowId) (p : IPCP) (hp : net.ipcp self_id = some p) :
    (∀ ifid q pl h, p.higher_ipcp = some h →
        IPCP.receive_data (fuel+1) net self_id (Frame.encap ifid q pl) fid =
          IPCP.receive_data fuel net h pl ifid)
    ∧ (∀ ifid q pl, p.higher_ipcp = none →
        IPCP.receive_data (fuel+1) net self_id (Frame.encap ifid q pl) fid = net)
    ∧ (∀ d f, d.isEncap = false → fid ∈ p.flows → net.flow fid = some f →
        ∃ f', (IPCP.receive_data (fuel+1) net self_id d fid).flow fid = some f' ∧
          f'.received_packets = f.received_packets + 1 ∧
          f'.recv_base = f.recv_base ∧
          f'.out_of_order_buffer = f.out_of_order_buffer ∧
          f'.unacked_packets = f.unacked_packets ∧
          f'.sequence_gen = f.sequence_gen)
    ∧ (∀ d f a buf, d.isEncap = false → fid ∈ p.flows → net.flow fid = some f →
        lookupA f.port p.port_map = some a → lookupA a net.app_buffers = some buf →
        lookupA a (IPCP.receive_data (fuel+1) net self_id d fid).app_buffers =
          some (buf ++ [d])) := by
  have hbind : ∀ (o : Option IpcpId), p.higher_ipcp = o →
      (net.ipcp self_id).bind IPCP.higher_ipcp = o := by
    intro o ho
    rw [hp]
    exact ho
  have hmain : ∀ d f, d.isEncap = false → fid ∈ p.flows → net.flow fid = some f →
      IPCP.receive_data (fuel+1) net self_id d fid =
        (match lookupA f.port p.port_map with
          | some a => Application.on_data
              (net.updFlow fid
                (fun h => { h with received_packets := h.received_packets + 1 })) a d
          | none => net.updFlow fid
              (fun h => { h with received_packets := h.received_packets + 1 })) := by
    intro d f hd hmem hf
    cases d with
    | encap ifid q pl => simp [Frame.isEncap] at hd
    | raw x => simp only [IPCP.receive_data, hp, if_pos hmem, hf]
    | dataPkt s dd => simp only [IPCP.receive_data, hp, if_pos hmem, hf]
    | ack a => simp only [IPCP.receive_data, hp, if_pos hmem, hf]
  refine ⟨?_, ?_, ?_, ?_⟩
  · intro ifid q pl h hh
    simp only [IPCP.receive_data, hbind (some h) hh]
  · intro ifid q pl hh
    simp only [IPCP.receive_data, hbind none hh]
  · intro d f hd hmem hf
    rw [hmain d f hd hmem hf]
    have hupd : (net.updFlow fid
        (fun h => { h with received_packets := h.received_packets + 1 })).flow fid =
        some { f with received_packets := f.received_packets + 1 } :=
      flow_updFlow_some net fid _ f hf
    cases hpm : lookupA f.port p.port_map with
    | none =>
      exact ⟨{ f with received_packets := f.received_packets + 1 }, hupd,
        rfl, rfl, rfl, rfl, rfl⟩
    | some a =>
      simp only []
      refine ⟨{ f with received_packets := f.received_packets + 1 }, ?_,
        rfl, rfl, rfl, rfl, rfl⟩
      rw [flow_on_data]
      exact hupd
  · intro d f a buf hd hmem hf hpm hbuf
    rw [hmain d f hd hmem hf, hpm]
    simp only [Application.on_data]
    have hbuf1 : lookupA a (net.updFlow fid
        (fun h => { h with received_packets := h.received_packets + 1 })).app_buffers =
        some buf := by
      rw [updFlow_app_buffers]
      exact hbuf
    rw [hbuf1]
    simp only [Option.getD_some]
    exact lookupA_insertA_self _ _ _

theorem C5_receive_dispatch_witness :
    IPCP.receive_data 3 c2net 1 (Frame.encap 0 none (Frame.raw 1)) 0 = c2net ∧
      lookupA 0 (IPCP.receive_data 3 c2net 1 (Frame.raw 3) 0).app_buffers =
        some [Frame.raw 3] := by
  have h := C5_receive_dispatch 2 c2net 1 0 ⟨1, 0, none, none, [(5000, 0)], [0]⟩ (by rfl)
  refine ⟨h.2.1 0 none (Frame.raw 1) (by rfl), ?_⟩
  exact h.2.2.2 (Frame.raw 3) c2flow 0 [] (by rfl) (by decide) (by rfl) (by rfl) (by rfl)

/-! ### Drain-loop and delivery lemmas for the receive path -/

theorem drainLoop_length_le (fuel : Nat) :
    ∀ r buf, (drainLoop fuel r buf).2.2.length ≤ fuel := by
  induction fuel with
  | zero => intro r buf; exact Nat.le_refl 0
  | succ n ih =>
    intro r buf
    simp only [drainLoop]
    cases hl : lookupA r buf with
    | none => exact Nat.zero_le _
    | some d =>
      simp only [List.length_cons]
      exact Nat.succ_le_succ (ih _ _)

theorem drainLoop_done (fuel : Nat) :
    ∀ r buf, buf.length ≤ fuel →
      lookupA (drainLoop fuel r buf).1 (drainLoop fuel r buf).2.1 = none := by
  induction fuel with
  | zero =>
    intro r buf hb
    have : buf = [] := List.eq_nil_of_length_eq_zero (Nat.le_zero.mp hb)
    subst this
    rfl
  | succ n ih =>
    intro r buf hb
    simp only [drainLoop]
    cases hl : lookupA r buf with
    | none => exact hl
    | some d =>
      simp only []
      have hlt := eraseA_length_lt r buf d hl
      exact ih _ _ (by omega)

theorem drainLoop_base (fuel : Nat) :
    ∀ r buf, r < 65536 →
      (drainLoop fuel r buf).1 = (r + (drainLoop fuel r buf).2.2.length) % 65536 := by
  induction fuel with
  | zero =>
    intro r buf hr
    simp only [drainLoop, List.length_nil, Nat.add_zero]
    exact (Nat.mod_eq_of_lt hr).symm
  | succ n ih =>
    intro r buf hr
    simp only [drainLoop]
    cases hl : lookupA r buf with
    | none =>
      simp only [List.length_nil, Nat.add_zero]
      exact (Nat.mod_eq_of_lt hr).symm
    | some d =>
      simp only [List.length_cons]
      have := ih ((r + 1) % 65536) (eraseA r buf) (Nat.mod_lt _ (by omega))
      rw [this, Nat.mod_add_mod]
      congr 1
      omega

theorem drainLoop_out (fuel : Nat) :
    ∀ r buf, r < 65536 → fuel ≤ 65535 →
      ∀ i v, (drainLoop fuel r buf).2.2.get? i = some v →
        lookupA ((r + i) % 65536) buf = some v := by
  induction fuel with
  | zero => intro r buf _ _ i v hv; cases hv
  | succ n ih =>
    intro r buf hr hfuel i v hv
    simp only [drainLoop] at hv
    cases hl : lookupA r buf with
    | none =>
      rw [hl] at hv
      cases hv
    | some d =>
      rw [hl] at hv
      simp only [] at hv
      cases i with
      | zero =>
        simp only [List.get?] at hv
        cases hv
        rw [Nat.add_zero, Nat.mod_eq_of_lt hr]
        exact hl
      | succ j =>
        simp only [List.get?] at hv
        have hjlen : j < (drainLoop n ((r + 1) % 65536) (eraseA r buf)).2.2.length :=
          List.get?_eq_some.mp hv |>.1
        have hjn : j < n := by
          have := drainLoop_length_le n ((r + 1) % 65536) (eraseA r buf)
          omega
        have hrec := ih ((r + 1) % 65536) (eraseA r buf) (Nat.mod_lt _ (by omega))
          (by omega) j v hv
        have hkey : ((r + 1) % 65536 + j) % 65536 = (r + (j + 1)) % 65536 := by
          rw [Nat.mod_add_mod]
          congr 1
          omega
        rw [hkey] at hrec
        have hne : (r + (j + 1)) % 65536 ≠ r := by
          intro he
          omega
        rw [lookupA_eraseA_ne r ((r + (j + 1)) % 65536) buf hne] at hrec
        exact hrec

theorem setFlow_app_buffers (net : Network) (i : FlowId) (f : Flow) :
    (net.setFlow i f).app_buffers = net.app_buffers := rfl

theorem setFlow_ipcps (net : Network) (i : FlowId) (f : Flow) :
    (net.setFlow i f).ipcps = net.ipcps := rfl

theorem deliver_app_buffers_bound (net : Network) (i : IpcpId) (port : Port) (d : Frame)
    (p : IPCP) (a : AppId) (buf : List Frame)
    (hp : net.ipcp i = some p) (hpm : lookupA port p.port_map = some a)
    (hbuf : lookupA a net.app_buffers = some buf) :
    lookupA a (IPCP.deliver_to_application net i port d).app_buffers =
      some (buf ++ [d]) := by
  simp only [IPCP.deliver_to_application, hp, hpm, Application.on_data, hbuf,
    Option.getD_some]
  exact lookupA_insertA_self _ _ _

theorem deliver_fold_app_buffers (outs : List Frame) :
    ∀ (net : Network) (i : IpcpId) (port : Port) (p : IPCP) (a : AppId)
      (buf : List Frame), net.ipcp i = some p → lookupA port p.port_map = some a →
      lookupA a net.app_buffers = some buf →
      lookupA a ((outs.foldl (fun n d => IPCP.deliver_to_application n i port d)
          net).app_buffers) = some (buf ++ outs) := by
  induction outs with
  | nil =>
    intro net i port p a buf hp hpm hbuf
    simpa using hbuf
  | cons d rest ih =>
    intro net i port p a buf hp hpm hbuf
    simp only [List.foldl_cons]
    have hp' : (IPCP.deliver_to_application net i port d).ipcp i = some p := by
      simp only [Network.ipcp] at hp ⊢
      rw [deliver_ipcps]
      exact hp
    have hbuf' := deliver_app_buffers_bound net i port d p a buf hp hpm hbuf
    have := ih (IPCP.deliver_to_application net i port d) i port p a (buf ++ [d])
      hp' hpm hbuf'
    simpa using this

theorem deliver_fold_ipcps (outs : List Frame) :
    ∀ (net : Network) (i : IpcpId) (port : Port),
      ((outs.foldl (fun n d => IPCP.deliver_to_application n i port d) net).ipcps) =
        net.ipcps := by
  induction outs with
  | nil => intro net i port; rfl
  | cons d rest ih =>
    intro net i port
    simp only [List.foldl_cons]
    rw [ih, deliver_ipcps]

theorem deliver_fold_flow_heap (outs : List Frame) :
    ∀ (net : Network) (i : IpcpId) (port : Port),
      ((outs.foldl (fun n d => IPCP.deliver_to_application n i port d)
          net).flow_heap) = net.flow_heap := by
  induction outs with
  | nil => intro net i port; rfl
  | cons d rest ih =>
    intro net i port
    simp only [List.foldl_cons]
    rw [ih, deliver_flow_heap]

/-- With no carrying lower flow, `_send_ack` routes the ACK directly to
the source IPCP. -/
theorem send_ack_emit_direct (net : Network) (f : Flow) (h : f.lower_flow_id = none) :
    Flow.send_ack_emit net f =
      [⟨f.src_ipcp, f.id, Frame.ack ((f.recv_base + 65535) % 65536)⟩] := by
  simp only [Flow.send_ack_emit, h]

/-- C4: for every data frame handed to `Flow._handle_data_packet` (on a
flow with no carrying lower flow, whose `recv_base` is in range and whose
buffer is below the sequence-space size, as holds for every reachable
flow): an in-order frame (`seq = recv_base`) is delivered to the
destination application via `deliver_to_application`, `recv_base` advances
past every contiguously buffered successor, each drained payload having sat
in `out_of_order_buffer` at the consecutive expected sequence number and
being delivered in order behind the fresh payload; an out-of-order
in-window frame is buffered under its sequence number with nothing
delivered; an out-of-window frame leaves the network unchanged; and in
every case exactly one cumulative ACK with
`ack_seq_num = (recv_base - 1) mod 2^16` (for the updated `recv_base`) is
emitted towards the source. -/
theorem C4_handle_data_packet (net : Network) (fid : FlowId) (seq : Nat) (d : Frame)
    (f : Flow) (hf : net.flow fid = some f) (hrb : f.recv_base < 65536)
    (hlen : f.out_of_order_buffer.length ≤ 65535) (hlow : f.lower_flow_id = none) :
    (∀ f'', (Flow.handle_data_packet net fid seq d).1.flow fid = some f'' →
        (Flow.handle_data_packet net fid seq d).2 =
          [⟨f.src_ipcp, f.id, Frame.ack ((f''.recv_base + 65535) % 65536)⟩])
    ∧ (seq = f.recv_base →
        ∃ f' outs, (Flow.handle_data_packet net fid seq d).1.flow fid = some f'
          ∧ f'.recv_base = (f.recv_base + 1 + outs.length) % 65536
          ∧ lookupA f'.recv_base f'.out_of_order_buffer = none
          ∧ (∀ i v, outs.get? i = some v →
              lookupA ((f.recv_base + 1 + i) % 65536) f.out_of_order_buffer = some v)
          ∧ (∀ p2 a buf0, net.ipcp f.dest_ipcp = some p2 →
              lookupA f.port p2.port_map = some a →
              lookupA a net.app_buffers = some buf0 →
              lookupA a (Flow.handle_data_packet net fid seq d).1.app_buffers =
                some (buf0 ++ d :: outs)))
    ∧ (seq ≠ f.recv_base →
        f.sequence_gen.is_in_window seq f.recv_base f.window_size = true →
        ∃ f', (Flow.handle_data_packet net fid seq d).1.flow fid = some f'
          ∧ f'.recv_base = f.recv_base
          ∧ lookupA seq f'.out_of_order_buffer = some d
          ∧ (∀ s, s ≠ seq → lookupA s f'.out_of_order_buffer =
              lookupA s f.out_of_order_buffer)
          ∧ (Flow.handle_data_packet net fid seq d).1.app_buffers = net.app_buffers)
    ∧ (seq ≠ f.recv_base →
        f.sequence_gen.is_in_window seq f.recv_base f.window_size = false →
        (Flow.handle_data_packet net fid seq d).1 = net) := by
  refine ⟨?_, ?_, ?_, ?_⟩
  · intro f'' hf''
    by_cases hseq : seq = f.recv_base
    · simp only [Flow.handle_data_packet, hf, if_pos hseq] at hf'' ⊢
      rw [flow_setFlow_self] at hf''
      have hEq := Option.some.inj hf''
      subst hEq
      exact send_ack_emit_direct _ _ hlow
    · by_cases hwin :
        f.sequence_gen.is_in_window seq f.recv_base f.window_size = true
      · simp only [Flow.handle_data_packet, hf, if_neg hseq, hwin, if_true] at hf'' ⊢
        rw [flow_setFlow_self] at hf''
        have hEq := Option.some.inj hf''
        subst hEq
        exact send_ack_emit_direct _ _ hlow
      · have hwin' :
            f.sequence_gen.is_in_window seq f.recv_base f.window_size = false := by
          cases hb : f.sequence_gen.is_in_window seq f.recv_base f.window_size
          · rfl
          · exact absurd hb hwin
        simp only [Flow.handle_data_packet, hf, if_neg hseq, hwin', Bool.false_eq_true,
          if_false] at hf'' ⊢
        have hEq := Option.some.inj hf''
        subst hEq
        exact send_ack_emit_direct _ _ hlow
  · intro hseq
    simp only [Flow.handle_data_packet, hf, if_pos hseq]
    refine ⟨_, (drainLoop f.out_of_order_buffer.length ((f.recv_base + 1) % 65536)
      f.out_of_order_buffer).2.2, flow_setFlow_self _ _ _, ?_, ?_, ?_, ?_⟩
    · show (drainLoop f.out_of_order_buffer.length ((f.recv_base + 1) % 65536)
          f.out_of_order_buffer).1 = _
      rw [drainLoop_base _ _ _ (Nat.mod_lt _ (by omega)), Nat.mod_add_mod]
    · show lookupA _ (drainLoop f.out_of_order_buffer.length ((f.recv_base + 1) % 65536)
          f.out_of_order_buffer).2.1 = none
      exact drainLoop_done _ _ _ (Nat.le_refl _)
    · intro i v hv
      have := drainLoop_out f.out_of_order_buffer.length ((f.recv_base + 1) % 65536)
        f.out_of_order_buffer (Nat.mod_lt _ (by omega)) hlen i v hv
      rw [Nat.mod_add_mod] at this
      exact this
    · intro p2 a buf0 hp2 hpm hbuf0
      show lookupA a (Network.setFlow _ fid _).app_buffers = _
      rw [setFlow_app_buffers]
      have hp2' : (IPCP.deliver_to_application net f.dest_ipcp f.port d).ipcp
          f.dest_ipcp = some p2 := by
        simp only [Network.ipcp] at hp2 ⊢
        rw [deliver_ipcps]
        exact hp2
      have hbuf1 := deliver_app_buffers_bound net f.dest_ipcp f.port d p2 a buf0
        hp2 hpm hbuf0
      have := deliver_fold_app_buffers
        ((drainLoop f.out_of_order_buffer.length ((f.recv_base + 1) % 65536)
          f.out_of_order_buffer).2.2)
        (IPCP.deliver_to_application net f.dest_ipcp f.port d) f.dest_ipcp f.port
        p2 a (buf0 ++ [d]) hp2' hpm hbuf1
      simpa using this
  · intro hseq hwin
    simp only [Flow.handle_data_packet, hf, if_neg hseq, hwin, if_true]
    refine ⟨{ f with out_of_order_buffer := insertA seq d f.out_of_order_buffer },
      flow_setFlow_self _ _ _, rfl, ?_, ?_, rfl⟩
    · exact lookupA_insertA_self _ _ _
    · intro s hs
      exact lookupA_insertA_ne seq s d f.out_of_order_buffer hs
  · intro hseq hwin
    simp only [Flow.handle_data_packet, hf, if_neg hseq, hwin, Bool.false_eq_true,
      if_false]

theorem C4_handle_data_packet_witness :
    (Flow.handle_data_packet c4net 0 0 (Frame.raw 10)).2 =
      [⟨0, 0, Frame.ack 2⟩] ∧
    lookupA 7 (Flow.handle_data_packet c4net 0 0 (Frame.raw 10)).1.app_buffers =
      some [Frame.raw 10, Frame.raw 11, Frame.raw 12] := by
  have h := C4_handle_data_packet c4net 0 0 (Frame.raw 10) c4flow
    (by rfl) (by decide) (by decide) (by rfl)
  constructor
  · have hfl : (Flow.handle_data_packet c4net 0 0 (Frame.raw 10)).1.flow 0 =
        some { c4flow with recv_base := 3, out_of_order_buffer := [] } := by decide
    have := h.1 _ hfl
    simpa using this
  · decide

end Rina
